import Mathlib

/-!
# GPUCameraApp native core: bridge layer and benchmark harness

A shallow embedding of `jni_bridge.cpp` and `opencv_processor.cpp`.

Modelling conventions.

* The code is effectful; every C++ function becomes a function on an explicit `World`
  (bitmap pixel memory, lock count, number of clock readings taken, event trace).
* The external collaborators (Android bitmap API, JNI class lookup, OpenCV primitives, the
  device kernel `edgeDetectionGPU`, the clock) are fields of `Env`; every theorem quantifies
  over them.  They are assumed to return normally.  The clock is an arbitrary sequence of
  readings in nanoseconds.
* Entering one of the two edge detectors is recorded in the trace (`Event.callCPU`,
  `Event.callGPU`) together with the arguments of the call.
* `float` / `double` values are modelled by `FloatVal`: a finite value is the rational it
  denotes, next to the IEEE special values, so that a division by zero is visible in the
  result.  Every arithmetic operation and conversion rounds its exact result to the precision
  of its C++ type (24 significant bits for `float`, 53 for `double`, round to nearest, ties to
  even).  The exponent range of the formats is not modelled: the operands in the code are
  millisecond counts obtained from 64-bit clock readings, an `int` and the constants 1000 and
  3.5, whose products and quotients stay far inside the normal range of both formats.  Signed
  zeros are not modelled (every zero divisor in the code comes from an integer conversion and
  is therefore `+0`).
* `uint32_t` arithmetic is `Nat` arithmetic reduced modulo `2 ^ 32`; `int` products are
  mathematical products (signed overflow is undefined behaviour and not modelled).
-/

namespace GPUCameraApp

/-! ## Rounding to a binary precision -/

/-- Number of binary digits of `n`, computed with the given fuel. -/
def bitLengthAux : Nat → Nat → Nat
  | 0, _ => 0
  | fuel + 1, n => if n = 0 then 0 else bitLengthAux fuel (n / 2) + 1

/-- Number of binary digits of `n`: `2 ^ (bitLength n - 1) ≤ n < 2 ^ bitLength n` for `n > 0`. -/
def bitLength (n : Nat) : Nat := bitLengthAux n n

/-- Numerator and denominator of `(n / d) / 2 ^ x`. -/
def scaleBy (n d : Nat) (x : Int) : Nat × Nat :=
  if 0 ≤ x then (n, d * 2 ^ x.toNat) else (n * 2 ^ (-x).toNat, d)

/-- The integer nearest to `n / d`, ties to the even one. -/
def roundHalfEven (n d : Nat) : Nat :=
  if 2 * (n % d) < d then n / d
  else if d < 2 * (n % d) then n / d + 1
  else if (n / d) % 2 = 0 then n / d else n / d + 1

/-- The positive quotient `n / d` rounded to `p` significant bits, as mantissa and exponent:
the exponent `x` is the one with `2 ^ (p - 1) ≤ (n / d) / 2 ^ x < 2 ^ p` and the mantissa is
`(n / d) / 2 ^ x` rounded to the nearest integer, ties to even. -/
def roundPos (p n d : Nat) : Nat × Int :=
  if 2 ^ (p - 1) * (scaleBy n d ((bitLength n : Int) - (bitLength d : Int) - (p : Int) + 1)).2 ≤
      (scaleBy n d ((bitLength n : Int) - (bitLength d : Int) - (p : Int) + 1)).1 then
    (roundHalfEven (scaleBy n d ((bitLength n : Int) - (bitLength d : Int) - (p : Int) + 1)).1
        (scaleBy n d ((bitLength n : Int) - (bitLength d : Int) - (p : Int) + 1)).2,
      (bitLength n : Int) - (bitLength d : Int) - (p : Int) + 1)
  else
    (roundHalfEven (scaleBy n d ((bitLength n : Int) - (bitLength d : Int) - (p : Int))).1
        (scaleBy n d ((bitLength n : Int) - (bitLength d : Int) - (p : Int))).2,
      (bitLength n : Int) - (bitLength d : Int) - (p : Int))

/-- The rational `q` rounded to `p` significant bits, round to nearest, ties to even. -/
def roundTo (p : Nat) (q : ℚ) : ℚ :=
  if q = 0 then 0
  else (if q < 0 then -1 else 1) *
    (((roundPos p q.num.natAbs q.den).1 : ℚ) * 2 ^ (roundPos p q.num.natAbs q.den).2)

/-! ## Floating point values -/

/-- Values of the C++ types `float` and `double`. -/
inductive FloatVal where
  | fin (q : ℚ)
  | posInf
  | negInf
  | nan
  deriving DecidableEq

namespace FloatVal

/-- Infinity of the given sign. -/
def inf (neg : Bool) : FloatVal := if neg then negInf else posInf

/-- IEEE division `a / b` with the result rounded to `p` significant bits. -/
def divP (p : Nat) : FloatVal → FloatVal → FloatVal
  | nan, _ => nan
  | _, nan => nan
  | fin a, fin b =>
      if b = 0 then (if a = 0 then nan else inf (decide (a < 0))) else fin (roundTo p (a / b))
  | fin _, posInf => fin 0
  | fin _, negInf => fin 0
  | posInf, fin b => inf (decide (b < 0))
  | negInf, fin b => inf (!decide (b < 0))
  | posInf, posInf => nan
  | posInf, negInf => nan
  | negInf, posInf => nan
  | negInf, negInf => nan

/-- IEEE multiplication `a * b` with the result rounded to `p` significant bits. -/
def mulP (p : Nat) : FloatVal → FloatVal → FloatVal
  | nan, _ => nan
  | _, nan => nan
  | fin a, fin b => fin (roundTo p (a * b))
  | fin a, posInf => if a = 0 then nan else inf (decide (a < 0))
  | fin a, negInf => if a = 0 then nan else inf (!decide (a < 0))
  | posInf, fin b => if b = 0 then nan else inf (decide (b < 0))
  | negInf, fin b => if b = 0 then nan else inf (!decide (b < 0))
  | posInf, posInf => posInf
  | posInf, negInf => negInf
  | negInf, posInf => negInf
  | negInf, negInf => posInf

/-- Division of two `double` values. -/
def div (a b : FloatVal) : FloatVal := divP 53 a b

/-- Division of two `float` values. -/
def divF (a b : FloatVal) : FloatVal := divP 24 a b

/-- Multiplication of two `float` values. -/
def mulF (a b : FloatVal) : FloatVal := mulP 24 a b

/-- Conversion of an integer (`long long`) to `double`. -/
def ofInt (n : Int) : FloatVal := fin (roundTo 53 (n : ℚ))

/-- Conversion of an integer (`long long`, `int`) to `float`. -/
def ofIntF (n : Int) : FloatVal := fin (roundTo 24 (n : ℚ))

/-- Conversion of a `double` to `float`. -/
def toFloat : FloatVal → FloatVal
  | fin q => fin (roundTo 24 q)
  | v => v

end FloatVal

/-! ## Data model -/

/-- The fields of `AndroidBitmapInfo` the code reads (both `uint32_t`). -/
structure AndroidBitmapInfo where
  width : Nat
  height : Nat
  deriving DecidableEq

/-- An OpenCV matrix of 8-bit elements: `rows`, `cols` are `int`. -/
structure Mat where
  rows : Int
  cols : Int
  channels : Nat
  data : List Nat
  deriving DecidableEq

/-- Colour conversion codes passed to `cvtColor`. -/
inductive ColorCode where
  | RGBA2GRAY
  | GRAY2RGBA
  | BGR2GRAY
  deriving DecidableEq

/-- The record `struct BenchmarkResults` of `opencv_processor.h`. -/
structure BenchmarkResults where
  cpuTime : FloatVal
  gpuTime : FloatVal
  speedup : FloatVal
  framesProcessed : Int
  deriving DecidableEq

/-- The Java object `com.gpucameraapp.ProcessingResult(fps, cpuTime, gpuTime)`. -/
structure ProcessingResult where
  fps : FloatVal
  cpuTime : FloatVal
  gpuTime : FloatVal
  deriving DecidableEq

/-- Observable actions, in program order. -/
inductive Event where
  | getInfo (rc : Int)
  | lockPixels (rc : Int)
  | unlockPixels
  | cvtColor (code : ColorCode)
  | now
  | callCPU (input : Mat)
  | callGPU (input : List Nat) (outLen : Nat) (width height : Int)
  | alloc (n : Nat)
  | free
  | memcpy (n : Nat)
  | compareProcessing (iterations : Int)
  | findClass
  | getMethodID
  | newObject (fps cpuTime gpuTime : FloatVal)
  | logI
  | logE
  deriving DecidableEq

/-- The external collaborators of the native code. -/
structure Env where
  /-- return code of `AndroidBitmap_getInfo` -/
  getInfoRc : Int
  /-- metadata of the bitmap, written to `info` when `AndroidBitmap_getInfo` succeeds -/
  bitmapInfo : AndroidBitmapInfo
  /-- indeterminate contents of the local `info` before it is written -/
  uninitInfo : AndroidBitmapInfo
  /-- return code of `AndroidBitmap_lockPixels` -/
  lockRc : Int
  /-- bytes read through the indeterminate local `pixels` when the lock was not obtained -/
  wildMemory : List Nat
  /-- successive readings of `high_resolution_clock::now()`, in nanoseconds -/
  clock : Nat → Int
  /-- OpenCV `cvtColor` -/
  cvtColor : ColorCode → Mat → Mat
  /-- OpenCV `GaussianBlur(src, dst, Size(kw, kh), sigma)` -/
  GaussianBlur : Mat → Nat → Nat → ℚ → Mat
  /-- OpenCV `Canny(src, dst, threshold1, threshold2)` -/
  Canny : Mat → ℚ → ℚ → Mat
  /-- device kernel `edgeDetectionGPU(input, output, width, height)`: contents of `output`
  after the call, given the length of the output allocation -/
  edgeDetectionGPU : List Nat → Nat → Int → Int → List Nat
  /-- whether `FindClass("com/gpucameraapp/ProcessingResult")` is non-null -/
  hasResultClass : Bool
  /-- whether `GetMethodID(cls, "<init>", "(FFF)V")` is non-null -/
  hasConstructor : Bool

/-- Program state threaded through the native code. -/
structure World where
  /-- pixel memory of the caller-owned bitmap -/
  pixels : List Nat
  /-- number of outstanding pixel locks -/
  lockCount : Nat
  /-- number of clock readings taken so far -/
  tick : Nat
  /-- actions performed so far -/
  trace : List Event

/-- State at entry of a bridge call on a bitmap with the given pixel bytes. -/
def World.start (pixels : List Nat) : World :=
  { pixels := pixels, lockCount := 0, tick := 0, trace := [] }

/-- Append an action to the trace. -/
def emit (e : Event) (w : World) : World :=
  { w with trace := w.trace ++ [e] }

/-! ## Machine arithmetic -/

/-- Product of two `uint32_t` values. -/
def mulU32 (a b : Nat) : Nat := (a * b) % 2 ^ 32

/-- Conversion of a `uint32_t` to `int`. -/
def toInt32 (a : Nat) : Int :=
  if a % 2 ^ 32 < 2 ^ 31 then ((a % 2 ^ 32 : Nat) : Int) else ((a % 2 ^ 32 : Nat) : Int) - 2 ^ 32

/-- The value of `duration_cast<milliseconds>(t1 - t0).count()` for readings in nanoseconds:
integer division truncating toward zero. -/
def durationMs (t0 t1 : Int) : Int := (t1 - t0).tdiv 1000000

/-! ## External calls -/

/-- The call `high_resolution_clock::now()`. -/
def now (env : Env) (w : World) : Int × World :=
  (env.clock w.tick, emit Event.now { w with tick := w.tick + 1 })

/-- The call `AndroidBitmap_getInfo(env, bitmap, &info)`: return code and contents of `info`. -/
def AndroidBitmap_getInfo (env : Env) (w : World) : Int × AndroidBitmapInfo × World :=
  (env.getInfoRc,
   if env.getInfoRc < 0 then env.uninitInfo else env.bitmapInfo,
   emit (Event.getInfo env.getInfoRc) w)

/-- The call `AndroidBitmap_lockPixels(env, bitmap, &pixels)`: return code and the bytes
readable through `pixels`. -/
def AndroidBitmap_lockPixels (env : Env) (w : World) : Int × List Nat × World :=
  if env.lockRc < 0 then
    (env.lockRc, env.wildMemory, emit (Event.lockPixels env.lockRc) w)
  else
    (env.lockRc, w.pixels, emit (Event.lockPixels env.lockRc) { w with lockCount := w.lockCount + 1 })

/-- The call `AndroidBitmap_unlockPixels(env, bitmap)`. -/
def AndroidBitmap_unlockPixels (w : World) : World :=
  emit Event.unlockPixels { w with lockCount := w.lockCount - 1 }

/-- The call `cvtColor(src, dst, code)`. -/
def cvtColor (env : Env) (code : ColorCode) (src : Mat) (w : World) : Mat × World :=
  (env.cvtColor code src, emit (Event.cvtColor code) w)

/-- The call `memcpy(pixels, src, n)` onto the bitmap memory. -/
def memcpy (src : List Nat) (n : Nat) (w : World) : World :=
  emit (Event.memcpy n) { w with pixels := src.take n ++ w.pixels.drop n }

/-- The call `FindClass`. -/
def FindClass (env : Env) (w : World) : Bool × World :=
  (env.hasResultClass, emit Event.findClass w)

/-- The call `GetMethodID` on the class found. -/
def GetMethodID (env : Env) (cls : Bool) (w : World) : Bool × World :=
  (cls && env.hasConstructor, emit Event.getMethodID w)

/-- The call `NewObject(cls, ctor, fps, cpuTime, gpuTime)`; no object is built from a null
class or constructor. -/
def NewObject (cls ctor : Bool) (fps cpuTime gpuTime : FloatVal) (w : World) :
    Option ProcessingResult × World :=
  (if cls && ctor then some { fps := fps, cpuTime := cpuTime, gpuTime := gpuTime } else none,
   emit (Event.newObject fps cpuTime gpuTime) w)

/-! ## opencv_processor.cpp -/

/-- The function `ImageProcessor::edgeDetectionCPU`. -/
def edgeDetectionCPU (env : Env) (input : Mat) (w : World) : Mat × World :=
  let w := emit (Event.callCPU input) w
  let s := now env w
  let g := if input.channels = 3 ∨ input.channels = 4 then cvtColor env ColorCode.BGR2GRAY input s.2
           else (input, s.2)
  let gray := env.GaussianBlur g.1 5 5 (7 / 5)
  let edges := env.Canny gray 50 150
  let e := now env g.2
  (edges, emit Event.logI e.2)

/-- The loop `for (int i = 0; i < iterations; i++) Mat edges = edgeDetectionCPU(gray);`
run for the given number of rounds. -/
def cpuLoop (env : Env) (gray : Mat) : Nat → World → World
  | 0, w => w
  | n + 1, w => cpuLoop env gray n (edgeDetectionCPU env gray w).2

/-- The call `edgeDetectionGPU(input, output, width, height)` on an output allocation of
`outLen` bytes. -/
def edgeDetectionGPU (env : Env) (input : List Nat) (outLen : Nat) (width height : Int)
    (w : World) : List Nat × World :=
  (env.edgeDetectionGPU input outLen width height,
   emit (Event.callGPU input outLen width height) w)

/-- The loop `for (int i = 0; i < iterations; i++) edgeDetectionGPU(gray.data, output, ...);`
run for the given number of rounds. -/
def gpuLoop (env : Env) (input : List Nat) (outLen : Nat) (width height : Int) :
    Nat → World → World
  | 0, w => w
  | n + 1, w => gpuLoop env input outLen width height n
      (edgeDetectionGPU env input outLen width height w).2

/-- The function `PerformanceBenchmark::compareProcessing`. -/
def compareProcessing (env : Env) (frame : Mat) (iterations : Int) (w : World) :
    BenchmarkResults × World :=
  let w := emit (Event.compareProcessing iterations) w
  let g := if frame.channels = 3 ∨ frame.channels = 4 then cvtColor env ColorCode.BGR2GRAY frame w
           else (frame, w)
  let gray := g.1
  let width := gray.cols
  let height := gray.rows
  let w := emit Event.logI g.2
  let cpuStart := now env w
  let w := cpuLoop env gray iterations.toNat cpuStart.2
  let cpuEnd := now env w
  let cpuTime := FloatVal.ofInt (durationMs cpuStart.1 cpuEnd.1)
  let outLen := (width * height).toNat
  let w := emit (Event.alloc outLen) cpuEnd.2
  let gpuStart := now env w
  let w := gpuLoop env gray.data outLen width height iterations.toNat gpuStart.2
  let gpuEnd := now env w
  let gpuTime := FloatVal.ofInt (durationMs gpuStart.1 gpuEnd.1)
  let w := emit Event.free gpuEnd.2
  let speedup := FloatVal.div cpuTime gpuTime
  let w := emit Event.logI (emit Event.logI (emit Event.logI (emit Event.logI w)))
  ({ cpuTime := cpuTime, gpuTime := gpuTime, speedup := speedup, framesProcessed := iterations }, w)

/-! ## jni_bridge.cpp -/

/-- Length of the allocation `new unsigned char[info.width * info.height]`. -/
def gpuOutputLen (info : AndroidBitmapInfo) : Nat := mulU32 info.width info.height

/-- Byte count of `memcpy(pixels, rgba.data, info.width * info.height * 4)`. -/
def writeBackLen (info : AndroidBitmapInfo) : Nat := mulU32 (mulU32 info.width info.height) 4

/-- The function `Java_com_gpucameraapp_GPUProcessorModule_processFrame`; `none` is the
`nullptr` return. -/
def processFrame (env : Env) (useGPU : Bool) (w : World) : Option ProcessingResult × World :=
  let i := AndroidBitmap_getInfo env w
  if i.1 < 0 then (none, emit Event.logE i.2.2) else
  let info := i.2.1
  let l := AndroidBitmap_lockPixels env i.2.2
  if l.1 < 0 then (none, emit Event.logE l.2.2) else
  let w := emit Event.logI l.2.2
  let frame : Mat := { rows := toInt32 info.height, cols := toInt32 info.width, channels := 4,
                       data := l.2.1 }
  let g := cvtColor env ColorCode.RGBA2GRAY frame w
  let gray := g.1
  let startTime := now env g.2
  let o : Mat × World :=
    if useGPU then
      let w := emit (Event.alloc (gpuOutputLen info)) startTime.2
      let k := edgeDetectionGPU env gray.data (gpuOutputLen info) (toInt32 info.width)
        (toInt32 info.height) w
      let output : Mat := { rows := toInt32 info.height, cols := toInt32 info.width,
                            channels := 1, data := k.1 }
      (output, emit Event.free k.2)
    else
      edgeDetectionCPU env gray startTime.2
  let output := o.1
  let endTime := now env o.2
  let duration := durationMs startTime.1 endTime.1
  let processingTime := FloatVal.ofIntF duration
  let fps := FloatVal.divF (FloatVal.fin 1000) processingTime
  let w := emit Event.logI endTime.2
  let r := cvtColor env ColorCode.GRAY2RGBA output w
  let w := memcpy r.1.data (writeBackLen info) r.2
  let w := AndroidBitmap_unlockPixels w
  let c := FindClass env w
  if c.1 = false then (none, emit Event.logE c.2) else
  let m := GetMethodID env c.1 c.2
  if m.1 = false then (none, emit Event.logE m.2) else
  let cpuTime := if useGPU then FloatVal.mulF processingTime (FloatVal.fin (7 / 2)) else processingTime
  let gpuTime := if useGPU then processingTime else FloatVal.divF processingTime (FloatVal.fin (7 / 2))
  NewObject c.1 m.1 fps cpuTime gpuTime m.2

/-- The function `Java_com_gpucameraapp_GPUProcessorModule_nativeInit`. -/
def nativeInit (w : World) : World := emit Event.logI w

/-- The function `Java_com_gpucameraapp_GPUProcessorModule_runBenchmark`. -/
def runBenchmark (env : Env) (iterations : Int) (w : World) : Option ProcessingResult × World :=
  let i := AndroidBitmap_getInfo env w
  let info := i.2.1
  let l := AndroidBitmap_lockPixels env i.2.2
  let frame : Mat := { rows := toInt32 info.height, cols := toInt32 info.width, channels := 4,
                       data := l.2.1 }
  let w := emit Event.logI l.2.2
  let b := compareProcessing env frame iterations w
  let benchResults := b.1
  let w := AndroidBitmap_unlockPixels b.2
  let c := FindClass env w
  let m := GetMethodID env c.1 c.2
  let fps := FloatVal.toFloat
    (FloatVal.div (FloatVal.mulF (FloatVal.fin 1000) (FloatVal.ofIntF iterations))
      benchResults.cpuTime)
  NewObject c.1 m.1 fps (FloatVal.toFloat benchResults.cpuTime)
    (FloatVal.toFloat benchResults.gpuTime) m.2

/-! ## Observations on traces -/

/-- Whether an action is an invocation of one of the two edge detectors. -/
def Event.isDetectorCall : Event → Bool
  | Event.callCPU _ => true
  | Event.callGPU _ _ _ _ => true
  | _ => false

/-- The detector invocations of a trace, in order. -/
def detectorCalls (t : List Event) : List Event := t.filter Event.isDetectorCall

/-- Whether an action releases the pixel lock. -/
def Event.isUnlock : Event → Bool
  | Event.unlockPixels => true
  | _ => false

/-- Whether an action is a successful acquisition of the pixel lock. -/
def Event.isLockAcquired : Event → Bool
  | Event.lockPixels rc => decide (0 ≤ rc)
  | _ => false

/-- Number of releases of the pixel lock in a trace. -/
def releases (t : List Event) : Nat := (t.filter Event.isUnlock).length

/-- Actions performed by one call of `ImageProcessor::edgeDetectionCPU`. -/
def cpuEvents (input : Mat) : List Event :=
  [Event.callCPU input, Event.now] ++
    (if input.channels = 3 ∨ input.channels = 4 then [Event.cvtColor ColorCode.BGR2GRAY] else []) ++
    [Event.now, Event.logI]

/-- The grayscale matrix prepared by `compareProcessing`. -/
def benchGray (env : Env) (frame : Mat) : Mat :=
  if frame.channels = 3 ∨ frame.channels = 4 then env.cvtColor ColorCode.BGR2GRAY frame else frame

/-- Actions performed by `compareProcessing`. -/
def benchEvents (env : Env) (frame : Mat) (iterations : Int) : List Event :=
  [Event.compareProcessing iterations] ++
    (if frame.channels = 3 ∨ frame.channels = 4 then [Event.cvtColor ColorCode.BGR2GRAY] else []) ++
    [Event.logI, Event.now] ++
    (List.replicate iterations.toNat (cpuEvents (benchGray env frame))).flatten ++
    [Event.now,
      Event.alloc ((benchGray env frame).cols * (benchGray env frame).rows).toNat, Event.now] ++
    List.replicate iterations.toNat
      (Event.callGPU (benchGray env frame).data
        ((benchGray env frame).cols * (benchGray env frame).rows).toNat
        (benchGray env frame).cols (benchGray env frame).rows) ++
    [Event.now, Event.free, Event.logI, Event.logI, Event.logI, Event.logI]

/-- The matrix header `Mat frame(info.height, info.width, CV_8UC4, pixels)` of `runBenchmark`. -/
def benchFrame (env : Env) (px : List Nat) : Mat :=
  { rows := toInt32 (if env.getInfoRc < 0 then env.uninitInfo else env.bitmapInfo).height
    cols := toInt32 (if env.getInfoRc < 0 then env.uninitInfo else env.bitmapInfo).width
    channels := 4
    data := if env.lockRc < 0 then env.wildMemory else px }

/-- The state in which `runBenchmark` calls `compareProcessing`. -/
def benchWorld (env : Env) (w : World) : World :=
  emit Event.logI (AndroidBitmap_lockPixels env (AndroidBitmap_getInfo env w).2.2).2.2

/-- The record computed by `compareProcessing` inside `runBenchmark`. -/
def benchOf (env : Env) (iterations : Int) (w : World) : BenchmarkResults :=
  (compareProcessing env (benchFrame env w.pixels) iterations (benchWorld env w)).1

/-- The value of `duration.count()` in `processFrame` when `startTime` is clock reading number
`tick`: the accelerated branch takes no reading, `edgeDetectionCPU` takes two. -/
def measuredMs (env : Env) (useGPU : Bool) (tick : Nat) : Int :=
  durationMs (env.clock tick) (env.clock (if useGPU then tick + 1 else tick + 3))

/-- Whether an action allocates a device output buffer. -/
def Event.isAlloc : Event → Bool
  | Event.alloc _ => true
  | _ => false

/-- Whether an action copies bytes into the bitmap. -/
def Event.isMemcpy : Event → Bool
  | Event.memcpy _ => true
  | _ => false

/-- The grayscale matrix `gray` of `processFrame`. -/
def frameGray (env : Env) (px : List Nat) : Mat :=
  env.cvtColor ColorCode.RGBA2GRAY
    { rows := toInt32 env.bitmapInfo.height, cols := toInt32 env.bitmapInfo.width, channels := 4,
      data := px }

/-- The matrix `output` of `processFrame` after the selected branch. -/
def frameOutput (env : Env) (useGPU : Bool) (px : List Nat) : Mat :=
  if useGPU then
    { rows := toInt32 env.bitmapInfo.height, cols := toInt32 env.bitmapInfo.width, channels := 1,
      data := env.edgeDetectionGPU (frameGray env px).data (gpuOutputLen env.bitmapInfo)
        (toInt32 env.bitmapInfo.width) (toInt32 env.bitmapInfo.height) }
  else (edgeDetectionCPU env (frameGray env px) (World.start px)).1

/-- A colour-to-gray conversion for the concrete environments: first byte of every pixel. -/
def firstOfFour : List Nat → List Nat
  | a :: _ :: _ :: _ :: rest => a :: firstOfFour rest
  | _ => []

/-- A gray-to-RGBA conversion for the concrete environments. -/
def grayToRgba : List Nat → List Nat
  | [] => []
  | b :: rest => b :: b :: b :: 255 :: grayToRgba rest

/-- A concrete environment: a 2x1 RGBA bitmap, every call succeeds, the clock advances by
2 ms per reading. -/
def demoEnv : Env :=
  { getInfoRc := 0
    bitmapInfo := { width := 2, height := 1 }
    uninitInfo := { width := 0, height := 0 }
    lockRc := 0
    wildMemory := []
    clock := fun t => (t : Int) * 2000000
    cvtColor := fun code m =>
      match code with
      | ColorCode.GRAY2RGBA => { m with channels := 4, data := grayToRgba m.data }
      | _ => { m with channels := 1, data := firstOfFour m.data }
    GaussianBlur := fun m _ _ _ => m
    Canny := fun m _ _ => { m with data := m.data.map (fun _ => 0) }
    edgeDetectionGPU := fun _ n _ _ => List.replicate n 255
    hasResultClass := true
    hasConstructor := true }

/-- The pixel bytes of the 2x1 bitmap. -/
def demoPixels : List Nat := [10, 20, 30, 255, 40, 50, 60, 255]

/-- The bitmap as a four-channel matrix. -/
def demoFrame : Mat := { rows := 1, cols := 2, channels := 4, data := demoPixels }

/-- The concrete environment with a clock that does not advance. -/
def frozenEnv : Env := { demoEnv with clock := fun _ => 0 }

/-- The concrete environment with both acquisition calls failing. -/
def failedAcquisitionEnv : Env := { demoEnv with getInfoRc := -1, lockRc := -1 }

/-- The concrete environment with a bitmap of width 0. -/
def zeroWidthEnv : Env := { demoEnv with bitmapInfo := { width := 0, height := 1 } }

/-- The concrete environment with a 65536 x 65536 bitmap. -/
def hugeEnv : Env := { demoEnv with bitmapInfo := { width := 65536, height := 65536 } }

/-- The concrete environment with a clock that advances by 3 ms per reading. -/
def threeMsEnv : Env := { demoEnv with clock := fun t => (t : Int) * 3000000 }

/-- The concrete environment in which one benchmark iteration takes 1 ms on the reference path
and 3 ms on the accelerated path. -/
def slowGpuEnv : Env :=
  { demoEnv with clock := fun t => if t < 3 then 0 else if t < 5 then 1000000 else 4000000 }

/-! ## Lemmas on rounding -/

theorem bitLengthAux_lt (fuel : Nat) : ∀ n : Nat, n ≤ fuel → n < 2 ^ bitLengthAux fuel n := by
  induction fuel with
  | zero =>
    intro n hn
    have h0 : n = 0 := Nat.le_zero.mp hn
    subst h0
    simp [bitLengthAux]
  | succ fuel ih =>
    intro n hn
    by_cases h0 : n = 0
    · subst h0
      simp [bitLengthAux]
    · have h2 : n / 2 ≤ fuel := by omega
      have h3 := ih (n / 2) h2
      simp only [bitLengthAux, h0, if_false, pow_succ]
      omega

theorem bitLengthAux_zero (fuel : Nat) : bitLengthAux fuel 0 = 0 := by
  cases fuel <;> simp [bitLengthAux]

theorem bitLengthAux_le (fuel : Nat) :
    ∀ n : Nat, n ≤ fuel → n ≠ 0 → 2 ^ bitLengthAux fuel n ≤ 2 * n := by
  induction fuel with
  | zero =>
    intro n hn h0
    exact absurd (Nat.le_zero.mp hn) h0
  | succ fuel ih =>
    intro n hn h0
    simp only [bitLengthAux, h0, if_false, pow_succ]
    by_cases h1 : n / 2 = 0
    · rw [h1, bitLengthAux_zero]
      omega
    · have h2 : n / 2 ≤ fuel := by omega
      have h3 := ih (n / 2) h2 h1
      omega

theorem bitLength_lt (n : Nat) : n < 2 ^ bitLength n := bitLengthAux_lt n n (le_refl n)

theorem bitLength_le (n : Nat) (h0 : n ≠ 0) : 2 ^ bitLength n ≤ 2 * n :=
  bitLengthAux_le n n (le_refl n) h0

theorem scaleBy_pos (n d : Nat) (x : Int) (hd : 0 < d) : 0 < (scaleBy n d x).2 := by
  unfold scaleBy
  split
  · exact Nat.mul_pos hd (pow_pos (by norm_num) _)
  · exact hd

theorem scaleBy_val (n d : Nat) (x : Int) (hd : 0 < d) :
    ((scaleBy n d x).1 : ℚ) / ((scaleBy n d x).2 : ℚ) * (2 : ℚ) ^ x = (n : ℚ) / (d : ℚ) := by
  have hd0 : (d : ℚ) ≠ 0 := by exact_mod_cast (ne_of_gt hd)
  unfold scaleBy
  split
  · rename_i hx
    have hx2 : x = ((x.toNat : Nat) : Int) := (Int.toNat_of_nonneg hx).symm
    have hp : (2 : ℚ) ^ x = (2 : ℚ) ^ x.toNat := by
      conv_lhs => rw [hx2]
      exact zpow_natCast 2 x.toNat
    rw [hp]
    push_cast
    field_simp
    ring
  · rename_i hx
    have hx1 : 0 ≤ -x := by omega
    have hx2 : x = -(((-x).toNat : Nat) : Int) := by
      rw [Int.toNat_of_nonneg hx1]
      ring
    have hp : (2 : ℚ) ^ x = ((2 : ℚ) ^ (-x).toNat)⁻¹ := by
      conv_lhs => rw [hx2]
      rw [zpow_neg, zpow_natCast]
    rw [hp]
    push_cast
    field_simp
    ring

theorem roundHalfEven_err (n d : Nat) (hd : 0 < d) :
    |((roundHalfEven n d : Nat) : ℚ) - (n : ℚ) / (d : ℚ)| ≤ 1 / 2 := by
  have hdq : (0 : ℚ) < (d : ℚ) := by exact_mod_cast hd
  have hn : (n : ℚ) = (d : ℚ) * ((n / d : Nat) : ℚ) + ((n % d : Nat) : ℚ) := by
    exact_mod_cast (Nat.div_add_mod n d).symm
  have hr : ((n % d : Nat) : ℚ) < (d : ℚ) := by exact_mod_cast Nat.mod_lt n hd
  have hr0 : (0 : ℚ) ≤ ((n % d : Nat) : ℚ) := Nat.cast_nonneg _
  have key : (n : ℚ) / (d : ℚ) = ((n / d : Nat) : ℚ) + ((n % d : Nat) : ℚ) / (d : ℚ) := by
    rw [hn]
    field_simp
    ring
  rw [key]
  unfold roundHalfEven
  split
  · rename_i h
    have h2 : (2 : ℚ) * ((n % d : Nat) : ℚ) < (d : ℚ) := by exact_mod_cast h
    rw [abs_le]
    constructor
    · have : ((n % d : Nat) : ℚ) / (d : ℚ) ≤ 1 / 2 := by
        rw [div_le_iff₀ hdq]
        linarith
      linarith
    · have : 0 ≤ ((n % d : Nat) : ℚ) / (d : ℚ) := div_nonneg hr0 (le_of_lt hdq)
      linarith
  · rename_i h
    have h2 : (d : ℚ) ≤ 2 * ((n % d : Nat) : ℚ) := by exact_mod_cast (not_lt.mp h)
    have hlow : 1 / 2 ≤ ((n % d : Nat) : ℚ) / (d : ℚ) := by
      rw [le_div_iff₀ hdq]
      linarith
    have hup : ((n % d : Nat) : ℚ) / (d : ℚ) ≤ 1 := by
      rw [div_le_iff₀ hdq]
      linarith
    split
    · rw [abs_le]
      push_cast
      constructor <;> linarith
    · rename_i h3
      have h4 : 2 * ((n % d : Nat) : ℚ) ≤ (d : ℚ) := by exact_mod_cast (not_lt.mp h3)
      have heq : ((n % d : Nat) : ℚ) / (d : ℚ) = 1 / 2 := by
        apply le_antisymm
        · rw [div_le_iff₀ hdq]
          linarith
        · exact hlow
      split
      · rw [abs_le]
        constructor <;> linarith
      · rw [abs_le]
        push_cast
        constructor <;> linarith

/-- The scaled quotient rounded by `roundPos` is at least `2 ^ (p - 1)`. -/
theorem roundPos_scaled (p n d : Nat) (hp : 1 ≤ p) (hn : 0 < n) (hd : 0 < d) :
    (roundPos p n d).1 =
        roundHalfEven (scaleBy n d (roundPos p n d).2).1 (scaleBy n d (roundPos p n d).2).2 ∧
    (2 : ℚ) ^ ((p : Int) - 1) ≤
      ((scaleBy n d (roundPos p n d).2).1 : ℚ) / ((scaleBy n d (roundPos p n d).2).2 : ℚ) := by
  have hpow : (2 : ℚ) ^ ((p : Int) - 1) = (2 : ℚ) ^ (p - 1) := by
    have h1 : ((p : Int) - 1) = ((p - 1 : Nat) : Int) := by omega
    rw [h1, zpow_natCast]
  unfold roundPos
  split
  · rename_i hchk
    refine ⟨rfl, ?_⟩
    have hD := scaleBy_pos n d ((bitLength n : Int) - (bitLength d : Int) - (p : Int) + 1) hd
    have hDq : (0 : ℚ) <
        ((scaleBy n d ((bitLength n : Int) - (bitLength d : Int) - (p : Int) + 1)).2 : ℚ) := by
      exact_mod_cast hD
    simp only
    rw [hpow, le_div_iff₀ hDq]
    exact_mod_cast hchk
  · refine ⟨rfl, ?_⟩
    simp only
    have hval := scaleBy_val n d ((bitLength n : Int) - (bitLength d : Int) - (p : Int)) hd
    have h2x : (0 : ℚ) < (2 : ℚ) ^ ((bitLength n : Int) - (bitLength d : Int) - (p : Int)) :=
      zpow_pos (by norm_num) _
    have hnq : (2 : ℚ) ^ (bitLength n : Int) ≤ 2 * (n : ℚ) := by
      rw [zpow_natCast]
      exact_mod_cast bitLength_le n (ne_of_gt hn)
    have hdq : (d : ℚ) ≤ (2 : ℚ) ^ (bitLength d : Int) := by
      rw [zpow_natCast]
      exact_mod_cast le_of_lt (bitLength_lt d)
    have hd0 : (0 : ℚ) < (d : ℚ) := by exact_mod_cast hd
    -- n / d ≥ 2 ^ (bn - 1 - bd)
    have hq : (2 : ℚ) ^ ((bitLength n : Int) - 1 - (bitLength d : Int)) ≤ (n : ℚ) / (d : ℚ) := by
      rw [le_div_iff₀ hd0]
      have e1 : (2 : ℚ) ^ ((bitLength n : Int) - 1 - (bitLength d : Int)) *
          (2 : ℚ) ^ (bitLength d : Int) = (2 : ℚ) ^ ((bitLength n : Int) - 1) := by
        rw [← zpow_add₀ (by norm_num : (2 : ℚ) ≠ 0)]
        congr 1
        ring
      have e2 : (2 : ℚ) ^ ((bitLength n : Int) - 1) * 2 = (2 : ℚ) ^ (bitLength n : Int) := by
        rw [zpow_sub_one₀ (by norm_num : (2 : ℚ) ≠ 0)]
        field_simp
      have hpos : (0 : ℚ) < (2 : ℚ) ^ ((bitLength n : Int) - 1 - (bitLength d : Int)) :=
        zpow_pos (by norm_num) _
      calc (2 : ℚ) ^ ((bitLength n : Int) - 1 - (bitLength d : Int)) * (d : ℚ)
          ≤ (2 : ℚ) ^ ((bitLength n : Int) - 1 - (bitLength d : Int)) *
              (2 : ℚ) ^ (bitLength d : Int) := mul_le_mul_of_nonneg_left hdq (le_of_lt hpos)
        _ = (2 : ℚ) ^ ((bitLength n : Int) - 1) := e1
        _ ≤ (n : ℚ) := by linarith
    have e3 : (2 : ℚ) ^ ((p : Int) - 1) *
        (2 : ℚ) ^ ((bitLength n : Int) - (bitLength d : Int) - (p : Int)) =
        (2 : ℚ) ^ ((bitLength n : Int) - 1 - (bitLength d : Int)) := by
      rw [← zpow_add₀ (by norm_num : (2 : ℚ) ≠ 0)]
      congr 1
      ring
    rw [← hval, ← e3] at hq
    exact le_of_mul_le_mul_right hq h2x

/-- Relative error of the rounding of a positive quotient. -/
theorem roundPos_err (p n d : Nat) (hp : 1 ≤ p) (hn : 0 < n) (hd : 0 < d) :
    |((roundPos p n d).1 : ℚ) * (2 : ℚ) ^ (roundPos p n d).2 - (n : ℚ) / (d : ℚ)| ≤
      (n : ℚ) / (d : ℚ) / (2 : ℚ) ^ p := by
  obtain ⟨hM, hlow⟩ := roundPos_scaled p n d hp hn hd
  have hD := scaleBy_pos n d (roundPos p n d).2 hd
  have herr := roundHalfEven_err (scaleBy n d (roundPos p n d).2).1
    (scaleBy n d (roundPos p n d).2).2 hD
  have hval := scaleBy_val n d (roundPos p n d).2 hd
  have h2x : (0 : ℚ) < (2 : ℚ) ^ (roundPos p n d).2 := zpow_pos (by norm_num) _
  rw [← hM] at herr
  have h1 : ((roundPos p n d).1 : ℚ) * (2 : ℚ) ^ (roundPos p n d).2 - (n : ℚ) / (d : ℚ) =
      (((roundPos p n d).1 : ℚ) - ((scaleBy n d (roundPos p n d).2).1 : ℚ) /
        ((scaleBy n d (roundPos p n d).2).2 : ℚ)) * (2 : ℚ) ^ (roundPos p n d).2 := by
    rw [← hval]
    ring
  rw [h1, abs_mul, abs_of_pos h2x]
  have hpp : (2 : ℚ) ^ p = (2 : ℚ) ^ ((p : Int) - 1) * 2 := by
    rw [zpow_sub_one₀ (by norm_num : (2 : ℚ) ≠ 0), zpow_natCast]
    field_simp
  have hpos1 : (0 : ℚ) < (2 : ℚ) ^ ((p : Int) - 1) := zpow_pos (by norm_num) _
  rw [← hval, hpp, le_div_iff₀ (by positivity)]
  calc |((roundPos p n d).1 : ℚ) - ((scaleBy n d (roundPos p n d).2).1 : ℚ) /
          ((scaleBy n d (roundPos p n d).2).2 : ℚ)| * (2 : ℚ) ^ (roundPos p n d).2 *
          ((2 : ℚ) ^ ((p : Int) - 1) * 2)
      ≤ 1 / 2 * (2 : ℚ) ^ (roundPos p n d).2 * ((2 : ℚ) ^ ((p : Int) - 1) * 2) := by
        apply mul_le_mul_of_nonneg_right
        · exact mul_le_mul_of_nonneg_right herr (le_of_lt h2x)
        · positivity
    _ = (2 : ℚ) ^ ((p : Int) - 1) * (2 : ℚ) ^ (roundPos p n d).2 := by ring
    _ ≤ ((scaleBy n d (roundPos p n d).2).1 : ℚ) / ((scaleBy n d (roundPos p n d).2).2 : ℚ) *
          (2 : ℚ) ^ (roundPos p n d).2 := mul_le_mul_of_nonneg_right hlow (le_of_lt h2x)

/-- Numerator magnitude over denominator is the absolute value. -/
theorem natAbs_num_div_den (q : ℚ) : ((q.num.natAbs : Nat) : ℚ) / (q.den : ℚ) = |q| := by
  have hd : (0 : ℚ) < (q.den : ℚ) := by exact_mod_cast q.den_pos
  have hq : q = (q.num : ℚ) / (q.den : ℚ) := (Rat.num_div_den q).symm
  have h1 : ((q.num.natAbs : Nat) : ℚ) = |(q.num : ℚ)| := by
    rw [Nat.cast_natAbs]
    push_cast
    rfl
  rw [h1]
  conv_rhs => rw [hq]
  rw [abs_div, abs_of_pos hd]

/-- Rounding to `p ≥ 1` significant bits has relative error at most `2 ^ (-p)`. -/
theorem roundTo_err (p : Nat) (hp : 1 ≤ p) (q : ℚ) :
    |roundTo p q - q| ≤ |q| / (2 : ℚ) ^ p := by
  unfold roundTo
  by_cases h0 : q = 0
  · simp [h0]
  · have hn : 0 < q.num.natAbs := Int.natAbs_pos.mpr (Rat.num_ne_zero.mpr h0)
    have herr := roundPos_err p q.num.natAbs q.den hp hn q.den_pos
    rw [natAbs_num_div_den] at herr
    simp only [h0, if_false]
    by_cases hneg : q < 0
    · simp only [hneg, if_true]
      rw [abs_of_neg hneg] at herr ⊢
      have e : -1 * (((roundPos p q.num.natAbs q.den).1 : ℚ) *
          (2 : ℚ) ^ (roundPos p q.num.natAbs q.den).2) - q =
          -((((roundPos p q.num.natAbs q.den).1 : ℚ) *
            (2 : ℚ) ^ (roundPos p q.num.natAbs q.den).2) - -q) := by ring
      rw [e, abs_neg]
      exact herr
    · simp only [hneg, if_false, one_mul]
      have hpos : 0 < q := lt_of_le_of_ne (not_lt.mp hneg) (Ne.symm h0)
      rw [abs_of_pos hpos] at herr ⊢
      exact herr

theorem roundTo_nonneg (p : Nat) (q : ℚ) (hq : 0 ≤ q) : 0 ≤ roundTo p q := by
  unfold roundTo
  by_cases h0 : q = 0
  · simp [h0]
  · simp only [h0, if_false, not_lt.mpr hq, one_mul]
    exact mul_nonneg (Nat.cast_nonneg _) (le_of_lt (zpow_pos (by norm_num) _))

theorem roundTo_pos (p : Nat) (hp : 1 ≤ p) (q : ℚ) (hq : 0 < q) : 0 < roundTo p q := by
  have herr := roundTo_err p hp q
  rw [abs_of_pos hq] at herr
  have h2 : (2 : ℚ) ≤ (2 : ℚ) ^ p := by
    calc (2 : ℚ) = (2 : ℚ) ^ 1 := by norm_num
      _ ≤ (2 : ℚ) ^ p := pow_le_pow_right₀ (by norm_num) hp
  have h3 : q / (2 : ℚ) ^ p ≤ q / 2 := by
    apply div_le_div_of_nonneg_left (le_of_lt hq) (by norm_num) h2
  have h4 := (abs_le.mp herr).1
  linarith

theorem bitLength_le_of_lt (n p : Nat) (h : n < 2 ^ p) : bitLength n ≤ p := by
  by_cases h0 : n = 0
  · subst h0
    simp [bitLength, bitLengthAux]
  · have h1 := bitLength_le n h0
    have h2 : 2 ^ bitLength n < 2 ^ (p + 1) := by
      rw [pow_succ]
      omega
    have h3 := (Nat.pow_lt_pow_iff_right (by norm_num : 1 < 2)).mp h2
    omega

theorem roundHalfEven_one (n : Nat) : roundHalfEven n 1 = n := by
  simp [roundHalfEven, Nat.mod_one]

/-- Integers below `2 ^ p` in magnitude are rounded to themselves. -/
theorem roundTo_intCast (p : Nat) (k : Int) (hk : k.natAbs < 2 ^ p) :
    roundTo p (k : ℚ) = (k : ℚ) := by
  unfold roundTo
  by_cases h0 : (k : ℚ) = 0
  · simp [h0]
  · have hk0 : k ≠ 0 := by
      intro h
      exact h0 (by simp [h])
    have hb : bitLength k.natAbs ≤ p := bitLength_le_of_lt _ _ hk
    have hb1 : bitLength 1 = 1 := by decide
    have hx1 : (bitLength k.natAbs : Int) - (bitLength 1 : Int) - (p : Int) + 1 ≤ 0 := by
      rw [hb1]
      omega
    have hmant : ∀ x : Int, x ≤ 0 →
        ((roundHalfEven (scaleBy k.natAbs 1 x).1 (scaleBy k.natAbs 1 x).2 : Nat) : ℚ) *
          (2 : ℚ) ^ x = (k.natAbs : ℚ) := by
      intro x hx
      have hv := scaleBy_val k.natAbs 1 x (by norm_num)
      have hd1 : (scaleBy k.natAbs 1 x).2 = 1 := by
        unfold scaleBy
        by_cases hx0 : 0 ≤ x
        · have : x = 0 := le_antisymm hx hx0
          subst this
          simp
        · simp [hx0]
      rw [hd1] at hv ⊢
      rw [roundHalfEven_one]
      simpa using hv
    have hval : ((roundPos p k.natAbs 1).1 : ℚ) * (2 : ℚ) ^ (roundPos p k.natAbs 1).2 =
        (k.natAbs : ℚ) := by
      unfold roundPos
      split
      · exact hmant _ hx1
      · exact hmant _ (by omega)
    simp only [h0, if_false, Rat.num_intCast, Rat.den_intCast, hval]
    by_cases hneg : (k : ℚ) < 0
    · have hk1 : k < 0 := by exact_mod_cast hneg
      simp only [hneg, if_true]
      rw [Nat.cast_natAbs, abs_of_neg hk1]
      push_cast
      ring
    · have hk1 : 0 ≤ k := by exact_mod_cast (not_lt.mp hneg)
      simp only [hneg, if_false, one_mul]
      rw [Nat.cast_natAbs, abs_of_nonneg hk1]

/-! ## Lemmas on the embedded functions -/

/-- The matrix returned by `ImageProcessor::edgeDetectionCPU`. -/
theorem edgeDetectionCPU_fst (env : Env) (input : Mat) (w : World) :
    (edgeDetectionCPU env input w).1 =
      env.Canny (env.GaussianBlur
        (if input.channels = 3 ∨ input.channels = 4 then env.cvtColor ColorCode.BGR2GRAY input
         else input) 5 5 (7 / 5)) 50 150 := by
  unfold edgeDetectionCPU
  by_cases h : input.channels = 3 ∨ input.channels = 4 <;> simp [h, cvtColor]

theorem edgeDetectionCPU_trace (env : Env) (input : Mat) (w : World) :
    (edgeDetectionCPU env input w).2.trace = w.trace ++ cpuEvents input := by
  unfold edgeDetectionCPU cpuEvents
  by_cases h : input.channels = 3 ∨ input.channels = 4 <;> simp [h, cvtColor, now, emit]

theorem edgeDetectionCPU_tick (env : Env) (input : Mat) (w : World) :
    (edgeDetectionCPU env input w).2.tick = w.tick + 2 := by
  unfold edgeDetectionCPU
  by_cases h : input.channels = 3 ∨ input.channels = 4 <;> simp [h, cvtColor, now, emit]

theorem edgeDetectionCPU_pixels (env : Env) (input : Mat) (w : World) :
    (edgeDetectionCPU env input w).2.pixels = w.pixels := by
  unfold edgeDetectionCPU
  by_cases h : input.channels = 3 ∨ input.channels = 4 <;> simp [h, cvtColor, now, emit]

theorem edgeDetectionCPU_lockCount (env : Env) (input : Mat) (w : World) :
    (edgeDetectionCPU env input w).2.lockCount = w.lockCount := by
  unfold edgeDetectionCPU
  by_cases h : input.channels = 3 ∨ input.channels = 4 <;> simp [h, cvtColor, now, emit]

theorem detectorCalls_cpuEvents (input : Mat) :
    (cpuEvents input).filter Event.isDetectorCall = [Event.callCPU input] := by
  unfold cpuEvents
  by_cases h : input.channels = 3 ∨ input.channels = 4 <;> simp [h, Event.isDetectorCall]

theorem releases_cpuEvents (input : Mat) :
    (cpuEvents input).filter Event.isUnlock = [] := by
  unfold cpuEvents
  by_cases h : input.channels = 3 ∨ input.channels = 4 <;> simp [h, Event.isUnlock]

theorem cpuLoop_trace (env : Env) (gray : Mat) (n : Nat) (w : World) :
    (cpuLoop env gray n w).trace = w.trace ++ (List.replicate n (cpuEvents gray)).flatten := by
  induction n generalizing w with
  | zero => simp [cpuLoop]
  | succ n ih => simp [cpuLoop, ih, edgeDetectionCPU_trace, List.replicate_succ]

theorem cpuLoop_tick (env : Env) (gray : Mat) (n : Nat) (w : World) :
    (cpuLoop env gray n w).tick = w.tick + 2 * n := by
  induction n generalizing w with
  | zero => simp [cpuLoop]
  | succ n ih => simp [cpuLoop, ih, edgeDetectionCPU_tick]; ring

theorem cpuLoop_pixels (env : Env) (gray : Mat) (n : Nat) (w : World) :
    (cpuLoop env gray n w).pixels = w.pixels := by
  induction n generalizing w with
  | zero => simp [cpuLoop]
  | succ n ih => simp [cpuLoop, ih, edgeDetectionCPU_pixels]

theorem cpuLoop_lockCount (env : Env) (gray : Mat) (n : Nat) (w : World) :
    (cpuLoop env gray n w).lockCount = w.lockCount := by
  induction n generalizing w with
  | zero => simp [cpuLoop]
  | succ n ih => simp [cpuLoop, ih, edgeDetectionCPU_lockCount]

theorem gpuLoop_trace (env : Env) (input : List Nat) (outLen : Nat) (width height : Int)
    (n : Nat) (w : World) :
    (gpuLoop env input outLen width height n w).trace =
      w.trace ++ List.replicate n (Event.callGPU input outLen width height) := by
  induction n generalizing w with
  | zero => simp [gpuLoop]
  | succ n ih => simp [gpuLoop, ih, edgeDetectionGPU, emit, List.replicate_succ]

theorem gpuLoop_tick (env : Env) (input : List Nat) (outLen : Nat) (width height : Int)
    (n : Nat) (w : World) :
    (gpuLoop env input outLen width height n w).tick = w.tick := by
  induction n generalizing w with
  | zero => simp [gpuLoop]
  | succ n ih => simp [gpuLoop, ih, edgeDetectionGPU, emit]

theorem gpuLoop_pixels (env : Env) (input : List Nat) (outLen : Nat) (width height : Int)
    (n : Nat) (w : World) :
    (gpuLoop env input outLen width height n w).pixels = w.pixels := by
  induction n generalizing w with
  | zero => simp [gpuLoop]
  | succ n ih => simp [gpuLoop, ih, edgeDetectionGPU, emit]

theorem gpuLoop_lockCount (env : Env) (input : List Nat) (outLen : Nat) (width height : Int)
    (n : Nat) (w : World) :
    (gpuLoop env input outLen width height n w).lockCount = w.lockCount := by
  induction n generalizing w with
  | zero => simp [gpuLoop]
  | succ n ih => simp [gpuLoop, ih, edgeDetectionGPU, emit]

theorem filter_flatten_replicate_cpuEvents_detector (input : Mat) (n : Nat) :
    ((List.replicate n (cpuEvents input)).flatten).filter Event.isDetectorCall =
      List.replicate n (Event.callCPU input) := by
  induction n with
  | zero => simp
  | succ n ih => simp [List.replicate_succ, ih, detectorCalls_cpuEvents]

theorem filter_flatten_replicate_cpuEvents_unlock (input : Mat) (n : Nat) :
    ((List.replicate n (cpuEvents input)).flatten).filter Event.isUnlock = [] := by
  induction n with
  | zero => simp
  | succ n ih => simp [List.replicate_succ, ih, releases_cpuEvents]

theorem compareProcessing_trace (env : Env) (frame : Mat) (iterations : Int) (w : World) :
    (compareProcessing env frame iterations w).2.trace =
      w.trace ++ benchEvents env frame iterations := by
  unfold compareProcessing benchEvents benchGray
  by_cases h : frame.channels = 3 ∨ frame.channels = 4 <;>
    simp [h, emit, now, cvtColor, cpuLoop_trace, gpuLoop_trace]

theorem compareProcessing_pixels (env : Env) (frame : Mat) (iterations : Int) (w : World) :
    (compareProcessing env frame iterations w).2.pixels = w.pixels := by
  unfold compareProcessing
  by_cases h : frame.channels = 3 ∨ frame.channels = 4 <;>
    simp [h, emit, now, cvtColor, cpuLoop_pixels, gpuLoop_pixels]

theorem compareProcessing_lockCount (env : Env) (frame : Mat) (iterations : Int) (w : World) :
    (compareProcessing env frame iterations w).2.lockCount = w.lockCount := by
  unfold compareProcessing
  by_cases h : frame.channels = 3 ∨ frame.channels = 4 <;>
    simp [h, emit, now, cvtColor, cpuLoop_lockCount, gpuLoop_lockCount]

/-- The four clock readings of `compareProcessing` started at reading number `tick`. -/
theorem compareProcessing_times (env : Env) (frame : Mat) (iterations : Int) (w : World) :
    (compareProcessing env frame iterations w).1 =
      { cpuTime := FloatVal.ofInt (durationMs (env.clock w.tick)
          (env.clock (w.tick + 1 + 2 * iterations.toNat)))
        gpuTime := FloatVal.ofInt (durationMs (env.clock (w.tick + 1 + 2 * iterations.toNat + 1))
          (env.clock (w.tick + 1 + 2 * iterations.toNat + 1 + 1)))
        speedup := FloatVal.div
          (FloatVal.ofInt (durationMs (env.clock w.tick)
            (env.clock (w.tick + 1 + 2 * iterations.toNat))))
          (FloatVal.ofInt (durationMs (env.clock (w.tick + 1 + 2 * iterations.toNat + 1))
            (env.clock (w.tick + 1 + 2 * iterations.toNat + 1 + 1))))
        framesProcessed := iterations } := by
  unfold compareProcessing
  by_cases h : frame.channels = 3 ∨ frame.channels = 4 <;>
    simp [h, emit, now, cvtColor, cpuLoop_tick, gpuLoop_tick]

theorem any_lock_cpuEvents (input : Mat) :
    (cpuEvents input).any Event.isLockAcquired = false := by
  unfold cpuEvents
  by_cases h : input.channels = 3 ∨ input.channels = 4 <;> simp [h, Event.isLockAcquired]

theorem any_lock_flatten_replicate_cpuEvents (input : Mat) (n : Nat) :
    ((List.replicate n (cpuEvents input)).flatten).any Event.isLockAcquired = false := by
  induction n with
  | zero => simp
  | succ n ih =>
    rw [List.replicate_succ, List.flatten_cons, List.any_append, ih, any_lock_cpuEvents]
    rfl

theorem benchEvents_filter_unlock (env : Env) (frame : Mat) (iterations : Int) :
    (benchEvents env frame iterations).filter Event.isUnlock = [] := by
  unfold benchEvents
  simp only [List.filter_append, filter_flatten_replicate_cpuEvents_unlock]
  by_cases h : frame.channels = 3 ∨ frame.channels = 4 <;> simp [h, Event.isUnlock]

theorem benchEvents_any_lock (env : Env) (frame : Mat) (iterations : Int) :
    (benchEvents env frame iterations).any Event.isLockAcquired = false := by
  unfold benchEvents
  simp only [List.any_append, any_lock_flatten_replicate_cpuEvents]
  by_cases h : frame.channels = 3 ∨ frame.channels = 4 <;> simp [h, Event.isLockAcquired]

theorem benchEvents_filter_detector (env : Env) (frame : Mat) (iterations : Int) :
    (benchEvents env frame iterations).filter Event.isDetectorCall =
      List.replicate iterations.toNat (Event.callCPU (benchGray env frame)) ++
      List.replicate iterations.toNat
        (Event.callGPU (benchGray env frame).data
          ((benchGray env frame).cols * (benchGray env frame).rows).toNat
          (benchGray env frame).cols (benchGray env frame).rows) := by
  unfold benchEvents
  simp only [List.filter_append, filter_flatten_replicate_cpuEvents_detector]
  by_cases h : frame.channels = 3 ∨ frame.channels = 4 <;> simp [h, Event.isDetectorCall]

theorem benchWorld_tick (env : Env) (w : World) : (benchWorld env w).tick = w.tick := by
  unfold benchWorld AndroidBitmap_lockPixels AndroidBitmap_getInfo emit
  by_cases h2 : env.lockRc < 0 <;> simp [h2]

theorem runBenchmark_trace (env : Env) (iterations : Int) (w : World) :
    (runBenchmark env iterations w).2.trace =
      w.trace ++ [Event.getInfo env.getInfoRc, Event.lockPixels env.lockRc, Event.logI] ++
        benchEvents env (benchFrame env w.pixels) iterations ++
        [Event.unlockPixels, Event.findClass, Event.getMethodID,
          Event.newObject
            (FloatVal.toFloat
              (FloatVal.div (FloatVal.mulF (FloatVal.fin 1000) (FloatVal.ofIntF iterations))
                (benchOf env iterations w).cpuTime))
            (FloatVal.toFloat (benchOf env iterations w).cpuTime)
            (FloatVal.toFloat (benchOf env iterations w).gpuTime)] := by
  unfold runBenchmark benchOf benchWorld benchFrame
  by_cases h2 : env.lockRc < 0 <;>
    simp [AndroidBitmap_getInfo, AndroidBitmap_lockPixels, h2, emit, AndroidBitmap_unlockPixels,
      FindClass, GetMethodID, NewObject, compareProcessing_trace]

theorem runBenchmark_result (env : Env) (iterations : Int) (w : World) :
    (runBenchmark env iterations w).1 =
      if env.hasResultClass && env.hasConstructor then
        some { fps := FloatVal.toFloat
                 (FloatVal.div (FloatVal.mulF (FloatVal.fin 1000) (FloatVal.ofIntF iterations))
                   (benchOf env iterations w).cpuTime)
               cpuTime := FloatVal.toFloat (benchOf env iterations w).cpuTime
               gpuTime := FloatVal.toFloat (benchOf env iterations w).gpuTime }
      else none := by
  unfold runBenchmark benchOf benchWorld benchFrame
  by_cases h2 : env.lockRc < 0 <;> cases hc : env.hasResultClass <;>
    cases hm : env.hasConstructor <;>
    simp [AndroidBitmap_getInfo, AndroidBitmap_lockPixels, h2, hc, hm, emit,
      AndroidBitmap_unlockPixels, FindClass, GetMethodID, NewObject]

theorem runBenchmark_lockCount (env : Env) (iterations : Int) (w : World) :
    (runBenchmark env iterations w).2.lockCount =
      (if env.lockRc < 0 then w.lockCount else w.lockCount + 1) - 1 := by
  unfold runBenchmark
  by_cases h2 : env.lockRc < 0 <;>
    simp [AndroidBitmap_getInfo, AndroidBitmap_lockPixels, h2, emit, AndroidBitmap_unlockPixels,
      FindClass, GetMethodID, NewObject, compareProcessing_lockCount]

theorem runBenchmark_pixels (env : Env) (iterations : Int) (w : World) :
    (runBenchmark env iterations w).2.pixels = w.pixels := by
  unfold runBenchmark
  by_cases h2 : env.lockRc < 0 <;>
    simp [AndroidBitmap_getInfo, AndroidBitmap_lockPixels, h2, emit, AndroidBitmap_unlockPixels,
      FindClass, GetMethodID, NewObject, compareProcessing_pixels]

theorem processFrame_result (env : Env) (useGPU : Bool) (w : World) :
    (processFrame env useGPU w).1 =
      if 0 ≤ env.getInfoRc ∧ 0 ≤ env.lockRc ∧ env.hasResultClass = true ∧
          env.hasConstructor = true then
        some { fps := FloatVal.divF (FloatVal.fin 1000) (FloatVal.ofIntF (measuredMs env useGPU w.tick))
               cpuTime := if useGPU then
                   FloatVal.mulF (FloatVal.ofIntF (measuredMs env useGPU w.tick)) (FloatVal.fin (7 / 2))
                 else FloatVal.ofIntF (measuredMs env useGPU w.tick)
               gpuTime := if useGPU then FloatVal.ofIntF (measuredMs env useGPU w.tick)
                 else FloatVal.divF (FloatVal.ofIntF (measuredMs env useGPU w.tick))
                   (FloatVal.fin (7 / 2)) }
      else none := by
  by_cases h1 : env.getInfoRc < 0
  · simp [processFrame, AndroidBitmap_getInfo, h1, not_le.mpr h1]
  · by_cases h2 : env.lockRc < 0
    · simp [processFrame, AndroidBitmap_getInfo, AndroidBitmap_lockPixels, h1, h2, not_le.mpr h2]
    · simp only [processFrame, AndroidBitmap_getInfo, AndroidBitmap_lockPixels, h1, h2]
      cases useGPU <;> cases hc : env.hasResultClass <;> cases hm : env.hasConstructor <;>
        simp [hc, hm, h1, h2, not_lt.mp h1, not_lt.mp h2, emit, cvtColor, now, memcpy,
          edgeDetectionGPU, AndroidBitmap_unlockPixels, FindClass, GetMethodID, NewObject,
          measuredMs, edgeDetectionCPU_tick]

/-- An acquisition failure in `processFrame`: null result, one error log, nothing else. -/
theorem processFrame_acquisition_failure (env : Env) (useGPU : Bool) (w : World)
    (h : env.getInfoRc < 0 ∨ env.lockRc < 0) :
    (processFrame env useGPU w).1 = none ∧
    (processFrame env useGPU w).2.pixels = w.pixels ∧
    (processFrame env useGPU w).2.lockCount = w.lockCount ∧
    ((processFrame env useGPU w).2.trace = w.trace ++ [Event.getInfo env.getInfoRc, Event.logE] ∨
     (processFrame env useGPU w).2.trace =
        w.trace ++ [Event.getInfo env.getInfoRc, Event.lockPixels env.lockRc, Event.logE]) := by
  by_cases h1 : env.getInfoRc < 0
  · simp [processFrame, AndroidBitmap_getInfo, h1, emit]
  · have h2 : env.lockRc < 0 := h.resolve_left h1
    simp [processFrame, AndroidBitmap_getInfo, AndroidBitmap_lockPixels, h1, h2, emit]

theorem cpuEvents_filter_alloc (input : Mat) : (cpuEvents input).filter Event.isAlloc = [] := by
  unfold cpuEvents
  by_cases h : input.channels = 3 ∨ input.channels = 4 <;> simp [h, Event.isAlloc]

theorem cpuEvents_filter_memcpy (input : Mat) : (cpuEvents input).filter Event.isMemcpy = [] := by
  unfold cpuEvents
  by_cases h : input.channels = 3 ∨ input.channels = 4 <;> simp [h, Event.isMemcpy]

/-- The sizes `processFrame` allocates and copies once the buffer is acquired. -/
theorem processFrame_sizes (env : Env) (useGPU : Bool) (px : List Nat)
    (h1 : 0 ≤ env.getInfoRc) (h2 : 0 ≤ env.lockRc) :
    (processFrame env useGPU (World.start px)).2.trace.filter Event.isAlloc =
      (if useGPU then [Event.alloc (gpuOutputLen env.bitmapInfo)] else []) ∧
    (processFrame env useGPU (World.start px)).2.trace.filter Event.isMemcpy =
      [Event.memcpy (writeBackLen env.bitmapInfo)] := by
  have h1 : ¬ env.getInfoRc < 0 := not_lt.mpr h1
  have h2 : ¬ env.lockRc < 0 := not_lt.mpr h2
  simp only [processFrame, AndroidBitmap_getInfo, AndroidBitmap_lockPixels, h1, h2]
  cases useGPU <;> cases hc : env.hasResultClass <;> cases hm : env.hasConstructor <;>
    simp [hc, hm, h1, h2, emit, cvtColor, now, memcpy, Event.isAlloc, Event.isMemcpy,
      edgeDetectionGPU, AndroidBitmap_unlockPixels, FindClass, GetMethodID, NewObject,
      World.start, edgeDetectionCPU_trace, cpuEvents_filter_alloc, cpuEvents_filter_memcpy]

/-- The detector invocations and the write-back of `processFrame` once the buffer is acquired. -/
theorem processFrame_calls (env : Env) (useGPU : Bool) (px : List Nat)
    (h1 : 0 ≤ env.getInfoRc) (h2 : 0 ≤ env.lockRc) :
    detectorCalls (processFrame env useGPU (World.start px)).2.trace =
      (if useGPU then
        [Event.callGPU (frameGray env px).data (gpuOutputLen env.bitmapInfo)
          (toInt32 env.bitmapInfo.width) (toInt32 env.bitmapInfo.height)]
       else [Event.callCPU (frameGray env px)]) ∧
    (processFrame env useGPU (World.start px)).2.pixels =
      (env.cvtColor ColorCode.GRAY2RGBA (frameOutput env useGPU px)).data.take
          (writeBackLen env.bitmapInfo) ++ px.drop (writeBackLen env.bitmapInfo) := by
  have h1 : ¬ env.getInfoRc < 0 := not_lt.mpr h1
  have h2 : ¬ env.lockRc < 0 := not_lt.mpr h2
  simp only [processFrame, AndroidBitmap_getInfo, AndroidBitmap_lockPixels, h1, h2]
  cases useGPU <;> cases hc : env.hasResultClass <;> cases hm : env.hasConstructor <;>
    simp [hc, hm, h1, h2, emit, cvtColor, now, memcpy, detectorCalls, Event.isDetectorCall,
      edgeDetectionGPU, AndroidBitmap_unlockPixels, FindClass, GetMethodID, NewObject,
      World.start, edgeDetectionCPU_trace, edgeDetectionCPU_pixels, detectorCalls_cpuEvents,
      frameOutput, frameGray, edgeDetectionCPU_fst]

theorem FloatVal.divP_fin (p : Nat) (a b : ℚ) (hb : b ≠ 0) :
    FloatVal.divP p (FloatVal.fin a) (FloatVal.fin b) = FloatVal.fin (roundTo p (a / b)) := by
  simp [FloatVal.divP, hb]

theorem FloatVal.div_zero_zero : FloatVal.div (FloatVal.fin 0) (FloatVal.fin 0) = FloatVal.nan := by
  simp [FloatVal.div, FloatVal.divP]

theorem FloatVal.divF_pos_zero (a : ℚ) (ha : 0 < a) :
    FloatVal.divF (FloatVal.fin a) (FloatVal.fin 0) = FloatVal.posInf := by
  simp [FloatVal.divF, FloatVal.divP, FloatVal.inf, ne_of_gt ha, not_lt.mpr (le_of_lt ha)]

/-- The two reported path times of `processFrame`. -/
theorem processFrame_times (env : Env) (useGPU : Bool) (w : World) (r : ProcessingResult)
    (hr : (processFrame env useGPU w).1 = some r) :
    if useGPU then
      r.gpuTime = FloatVal.ofIntF (measuredMs env true w.tick) ∧
        r.cpuTime = FloatVal.mulF r.gpuTime (FloatVal.fin (7 / 2))
    else
      r.cpuTime = FloatVal.ofIntF (measuredMs env false w.tick) ∧
        r.gpuTime = FloatVal.divF r.cpuTime (FloatVal.fin (7 / 2)) := by
  rw [processFrame_result] at hr
  split at hr
  · cases hr
    cases useGPU <;> simp
  · cases hr

/-- The rate field of the record `processFrame` returns. -/
theorem processFrame_fps (env : Env) (useGPU : Bool) (w : World) (r : ProcessingResult)
    (hr : (processFrame env useGPU w).1 = some r) :
    r.fps = FloatVal.divF (FloatVal.fin 1000) (FloatVal.ofIntF (measuredMs env useGPU w.tick)) := by
  rw [processFrame_result] at hr
  split at hr
  · cases hr
    rfl
  · cases hr



theorem FloatVal.ofInt_small (k : Int) (hk : k.natAbs < 2 ^ 53) :
    FloatVal.ofInt k = FloatVal.fin (k : ℚ) := by
  unfold FloatVal.ofInt
  rw [roundTo_intCast 53 k hk]

theorem FloatVal.ofIntF_small (k : Int) (hk : k.natAbs < 2 ^ 24) :
    FloatVal.ofIntF k = FloatVal.fin (k : ℚ) := by
  unfold FloatVal.ofIntF
  rw [roundTo_intCast 24 k hk]

/-- The double nearest to 1/3. -/
theorem roundTo_one_third :
    roundTo 53 (1 / 3) = 6004799503160661 / 18014398509481984 := by
  have hn : ((1 : ℚ) / 3).num = 1 := by norm_num
  have hd : ((1 : ℚ) / 3).den = 3 := by norm_num
  have hr : roundPos 53 (1 : Int).natAbs 3 = (6004799503160661, -54) := by decide
  unfold roundTo
  rw [hn, hd, hr]
  norm_num

/-- The float nearest to 12/7. -/
theorem roundTo_twelve_sevenths : roundTo 24 (12 / 7) = 14380471 / 8388608 := by
  have hn : ((12 : ℚ) / 7).num = 12 := by norm_num
  have hd : ((12 : ℚ) / 7).den = 7 := by norm_num
  have hr : roundPos 24 (12 : Int).natAbs 7 = (14380471, -23) := by decide
  unfold roundTo
  rw [hn, hd, hr]
  norm_num

/-- The float nearest to 1000/3. -/
theorem roundTo_thousand_thirds : roundTo 24 (1000 / 3) = 10922667 / 32768 := by
  have hn : ((1000 : ℚ) / 3).num = 1000 := by norm_num
  have hd : ((1000 : ℚ) / 3).den = 3 := by norm_num
  have hr : roundPos 24 (1000 : Int).natAbs 3 = (10922667, -15) := by decide
  unfold roundTo
  rw [hn, hd, hr]
  norm_num

/-- Rounding leaves small integer literals unchanged. -/
theorem roundTo_natCast (p n : Nat) (hn : n < 2 ^ p) : roundTo p (n : ℚ) = (n : ℚ) := by
  have h := roundTo_intCast p (n : Int) (by simpa using hn)
  simpa using h

/-- The record returned for the 2x1 bitmap on the accelerated path with the 2 ms clock. -/
theorem demoEnv_processFrame :
    (processFrame demoEnv true (World.start demoPixels)).1 =
      some { fps := FloatVal.fin 500, cpuTime := FloatVal.fin 7, gpuTime := FloatVal.fin 2 } := by
  have hms : measuredMs demoEnv true 0 = 2 := by decide
  have h2 : FloatVal.ofIntF 2 = FloatVal.fin 2 := by
    simpa using FloatVal.ofIntF_small 2 (by decide)
  have h500 : roundTo 24 500 = 500 := by simpa using roundTo_natCast 24 500 (by norm_num)
  have h7 : roundTo 24 7 = 7 := by simpa using roundTo_natCast 24 7 (by norm_num)
  have e1 : (1000 : ℚ) / 2 = 500 := by norm_num
  have e2 : (2 : ℚ) * (7 / 2) = 7 := by norm_num
  rw [processFrame_result]
  simp only [World.start, hms, h2, FloatVal.divF, FloatVal.mulF, FloatVal.mulP]
  rw [FloatVal.divP_fin 24 1000 2 (by norm_num), e1, e2, h500, h7]
  simp [demoEnv]

/-- The record returned for the 2x1 bitmap on the reference path with the 2 ms clock: 6 ms
measured, accelerated time `6 / 3.5f`. -/
theorem demoEnv_processFrame_cpu :
    (processFrame demoEnv false (World.start demoPixels)).1 =
      some { fps := FloatVal.divF (FloatVal.fin 1000) (FloatVal.fin 6),
             cpuTime := FloatVal.fin 6, gpuTime := FloatVal.fin (14380471 / 8388608) } := by
  have hms : measuredMs demoEnv false 0 = 6 := by decide
  have h6 : FloatVal.ofIntF 6 = FloatVal.fin 6 := by
    simpa using FloatVal.ofIntF_small 6 (by decide)
  have e1 : (6 : ℚ) / (7 / 2) = 12 / 7 := by norm_num
  rw [processFrame_result]
  simp only [World.start, hms, h6]
  rw [show FloatVal.divF (FloatVal.fin 6) (FloatVal.fin (7 / 2)) =
      FloatVal.fin (14380471 / 8388608) from by
    unfold FloatVal.divF
    rw [FloatVal.divP_fin 24 6 (7 / 2) (by norm_num), e1, roundTo_twelve_sevenths]]
  simp [demoEnv]

/-- The record returned on the accelerated path with the 3 ms clock. -/
theorem threeMsEnv_processFrame :
    (processFrame threeMsEnv true (World.start demoPixels)).1 =
      some { fps := FloatVal.fin (10922667 / 32768),
             cpuTime := FloatVal.mulF (FloatVal.fin 3) (FloatVal.fin (7 / 2)),
             gpuTime := FloatVal.fin 3 } := by
  have hms : measuredMs threeMsEnv true 0 = 3 := by decide
  have h3 : FloatVal.ofIntF 3 = FloatVal.fin 3 := by
    simpa using FloatVal.ofIntF_small 3 (by decide)
  rw [processFrame_result]
  simp only [World.start, hms, h3]
  rw [show FloatVal.divF (FloatVal.fin 1000) (FloatVal.fin 3) =
      FloatVal.fin (10922667 / 32768) from by
    unfold FloatVal.divF
    rw [FloatVal.divP_fin 24 1000 3 (by norm_num), roundTo_thousand_thirds]]
  simp [threeMsEnv, demoEnv]

/-- The totals of one benchmark iteration in `slowGpuEnv`. -/
theorem slowGpuEnv_times :
    (compareProcessing slowGpuEnv demoFrame 1 (World.start demoPixels)).1.cpuTime =
      FloatVal.fin 1 ∧
    (compareProcessing slowGpuEnv demoFrame 1 (World.start demoPixels)).1.gpuTime =
      FloatVal.fin 3 := by
  have h1 : FloatVal.ofInt 1 = FloatVal.fin 1 := by
    simpa using FloatVal.ofInt_small 1 (by decide)
  have h3 : FloatVal.ofInt 3 = FloatVal.fin 3 := by
    simpa using FloatVal.ofInt_small 3 (by decide)
  have d1 : durationMs (slowGpuEnv.clock 0) (slowGpuEnv.clock 3) = 1 := by decide
  have d3 : durationMs (slowGpuEnv.clock 4) (slowGpuEnv.clock 5) = 3 := by decide
  rw [compareProcessing_times]
  exact ⟨by simp only [World.start]; rw [← h1, ← d1]; rfl,
         by simp only [World.start]; rw [← h3, ← d3]; rfl⟩

/-- The speedup field is the double quotient of the two totals. -/
theorem compareProcessing_speedup_eq (env : Env) (frame : Mat) (iterations : Int) (w : World) :
    (compareProcessing env frame iterations w).1.speedup =
      FloatVal.div (compareProcessing env frame iterations w).1.cpuTime
        (compareProcessing env frame iterations w).1.gpuTime := by
  rw [compareProcessing_times]

/-- The actions of `processFrame` up to the first OpenCV call once the buffer is acquired. -/
theorem processFrame_trace_prefix (env : Env) (useGPU : Bool) (px : List Nat)
    (h1 : 0 ≤ env.getInfoRc) (h2 : 0 ≤ env.lockRc) :
    [Event.getInfo env.getInfoRc, Event.lockPixels env.lockRc, Event.logI,
        Event.cvtColor ColorCode.RGBA2GRAY] <+:
      (processFrame env useGPU (World.start px)).2.trace := by
  have h1 : ¬ env.getInfoRc < 0 := not_lt.mpr h1
  have h2 : ¬ env.lockRc < 0 := not_lt.mpr h2
  simp only [processFrame, AndroidBitmap_getInfo, AndroidBitmap_lockPixels, h1, h2]
  cases useGPU <;> cases hc : env.hasResultClass <;> cases hm : env.hasConstructor <;>
    simp [hc, hm, h1, h2, emit, cvtColor, now, memcpy,
      edgeDetectionGPU, AndroidBitmap_unlockPixels, FindClass, GetMethodID, NewObject,
      World.start, edgeDetectionCPU_trace, List.prefix_iff_eq_append]

/-! ## Theorems on the specification claims -/

/-- C1: once the buffer is acquired `processFrame` dispatches on `useGPU` alone. With
`useGPU = true` the only detector invocation is one call of `edgeDetectionGPU` on the grayscale
buffer, with `useGPU = false` it is one call of `edgeDetectionCPU`; the bytes written back are
the RGBA conversion of the invoked detector's output and do not change when the other detector
is replaced. -/
theorem processFrame_dispatch (env : Env) (px : List Nat) (useGPU : Bool)
    (hInfo : 0 ≤ env.getInfoRc) (hLock : 0 ≤ env.lockRc) :
    let info := env.bitmapInfo
    let gray := env.cvtColor ColorCode.RGBA2GRAY
      { rows := toInt32 info.height, cols := toInt32 info.width, channels := 4, data := px }
    let gpuOut : Mat :=
      { rows := toInt32 info.height, cols := toInt32 info.width, channels := 1,
        data := env.edgeDetectionGPU gray.data (gpuOutputLen info) (toInt32 info.width)
          (toInt32 info.height) }
    let cpuOut : Mat := (edgeDetectionCPU env gray (World.start px)).1
    let written (output : Mat) : List Nat :=
      (env.cvtColor ColorCode.GRAY2RGBA output).data.take (writeBackLen info) ++
        px.drop (writeBackLen info)
    let out := (processFrame env useGPU (World.start px)).2
    (useGPU = true →
      detectorCalls out.trace =
        [Event.callGPU gray.data (gpuOutputLen info) (toInt32 info.width) (toInt32 info.height)] ∧
      out.pixels = written gpuOut ∧
      ∀ blur canny, (processFrame { env with GaussianBlur := blur, Canny := canny } useGPU
        (World.start px)).2.pixels = out.pixels) ∧
    (useGPU = false →
      detectorCalls out.trace = [Event.callCPU gray] ∧
      out.pixels = written cpuOut ∧
      ∀ kernel, (processFrame { env with edgeDetectionGPU := kernel } useGPU
        (World.start px)).2.pixels = out.pixels) := by
  intro info gray gpuOut cpuOut written out
  have hc := processFrame_calls env useGPU px hInfo hLock
  constructor
  · intro hg
    subst hg
    refine ⟨by simpa using hc.1, by simpa [frameOutput] using hc.2, ?_⟩
    intro blur canny
    have hc2 := processFrame_calls { env with GaussianBlur := blur, Canny := canny } true px
      hInfo hLock
    rw [hc2.2, hc.2]
    simp [frameOutput, frameGray]
  · intro hg
    subst hg
    refine ⟨by simpa using hc.1, by simpa [frameOutput] using hc.2, ?_⟩
    intro kernel
    have hc2 := processFrame_calls { env with edgeDetectionGPU := kernel } false px hInfo hLock
    rw [hc2.2, hc.2]
    simp [frameOutput, frameGray, edgeDetectionCPU_fst]

/-- Witness of C1 on the 2x1 bitmap, both values of the flag. -/
theorem processFrame_dispatch_witness :
    (detectorCalls (processFrame demoEnv true (World.start demoPixels)).2.trace =
        [Event.callGPU [10, 40] 2 2 1] ∧
      (processFrame demoEnv true (World.start demoPixels)).2.pixels =
        [255, 255, 255, 255, 255, 255, 255, 255]) ∧
    (detectorCalls (processFrame demoEnv false (World.start demoPixels)).2.trace =
        [Event.callCPU { rows := 1, cols := 2, channels := 1, data := [10, 40] }] ∧
      (processFrame demoEnv false (World.start demoPixels)).2.pixels =
        [0, 0, 0, 255, 0, 0, 0, 255]) :=
  ⟨⟨((processFrame_dispatch demoEnv demoPixels true (by decide) (by decide)).1 rfl).1,
    ((processFrame_dispatch demoEnv demoPixels true (by decide) (by decide)).1 rfl).2.1⟩,
   ⟨((processFrame_dispatch demoEnv demoPixels false (by decide) (by decide)).2 rfl).1,
    ((processFrame_dispatch demoEnv demoPixels false (by decide) (by decide)).2 rfl).2.1⟩⟩

/-- C2 (evaluation at the failing input): with both acquisition calls failing, `runBenchmark`
still runs the benchmark, invokes both detectors and returns a metrics record. -/
theorem runBenchmark_ignores_acquisition_failure :
    failedAcquisitionEnv.getInfoRc < 0 ∧ failedAcquisitionEnv.lockRc < 0 ∧
    (runBenchmark failedAcquisitionEnv 1 (World.start demoPixels)).1.isSome = true ∧
    Event.compareProcessing 1 ∈
      (runBenchmark failedAcquisitionEnv 1 (World.start demoPixels)).2.trace ∧
    Event.cvtColor ColorCode.BGR2GRAY ∈
      (runBenchmark failedAcquisitionEnv 1 (World.start demoPixels)).2.trace ∧
    (detectorCalls (runBenchmark failedAcquisitionEnv 1 (World.start demoPixels)).2.trace).length
      = 2 := by
  decide

/-- C3: in every execution of `processFrame` and of `runBenchmark` that acquired the pixel
lock, the trace contains exactly one `AndroidBitmap_unlockPixels` and the lock is not held
when the call returns, whatever the outcome of the result construction. -/
theorem lock_released_exactly_once (env : Env) (useGPU : Bool) (iterations : Int)
    (px : List Nat) :
    (((processFrame env useGPU (World.start px)).2.trace.any Event.isLockAcquired = true →
        releases (processFrame env useGPU (World.start px)).2.trace = 1 ∧
        (processFrame env useGPU (World.start px)).2.lockCount = 0) ∧
     ((runBenchmark env iterations (World.start px)).2.trace.any Event.isLockAcquired = true →
        releases (runBenchmark env iterations (World.start px)).2.trace = 1 ∧
        (runBenchmark env iterations (World.start px)).2.lockCount = 0)) := by
  constructor
  · by_cases h1 : env.getInfoRc < 0
    · simp [processFrame, AndroidBitmap_getInfo, h1, emit, World.start, Event.isLockAcquired]
    · by_cases h2 : env.lockRc < 0
      · simp [processFrame, AndroidBitmap_getInfo, AndroidBitmap_lockPixels, h1, h2, emit,
          World.start, Event.isLockAcquired]
      · intro _
        simp only [processFrame, AndroidBitmap_getInfo, AndroidBitmap_lockPixels, h1, h2]
        cases useGPU <;> by_cases hc : env.hasResultClass <;> by_cases hm : env.hasConstructor <;>
          simp [hc, hm, h1, h2, releases, Event.isUnlock, emit, cvtColor, now, memcpy,
            edgeDetectionGPU, AndroidBitmap_unlockPixels, FindClass, GetMethodID, NewObject,
            World.start, edgeDetectionCPU_trace, edgeDetectionCPU_lockCount, releases_cpuEvents]
  · rw [runBenchmark_trace, runBenchmark_lockCount]
    by_cases h2 : env.lockRc < 0
    · simp [h2, World.start, Event.isLockAcquired, benchEvents_any_lock]
    · intro _
      simp [h2, World.start, releases, Event.isUnlock, benchEvents_filter_unlock]

/-- Witness of C3: a `processFrame` call whose result class is missing and a `runBenchmark`
call of two iterations. -/
theorem lock_released_exactly_once_witness :
    (releases (processFrame { demoEnv with hasResultClass := false } true
        (World.start demoPixels)).2.trace = 1 ∧
      (processFrame { demoEnv with hasResultClass := false } true
        (World.start demoPixels)).2.lockCount = 0) ∧
    (releases (runBenchmark { demoEnv with hasResultClass := false } 2
        (World.start demoPixels)).2.trace = 1 ∧
      (runBenchmark { demoEnv with hasResultClass := false } 2
        (World.start demoPixels)).2.lockCount = 0) :=
  ⟨(lock_released_exactly_once { demoEnv with hasResultClass := false } true 2 demoPixels).1
      (by decide),
   (lock_released_exactly_once { demoEnv with hasResultClass := false } true 2 demoPixels).2
      (by decide)⟩

/-- C4 (counterexample): with `iterations = 0` and a clock that does not advance, both totals
are 0 and the speedup field is the value of the division 0/0 (NaN). -/
theorem compareProcessing_zero_iterations_nan :
    (compareProcessing frozenEnv demoFrame 0 (World.start demoPixels)).1.cpuTime = FloatVal.fin 0 ∧
    (compareProcessing frozenEnv demoFrame 0 (World.start demoPixels)).1.gpuTime = FloatVal.fin 0 ∧
    (compareProcessing frozenEnv demoFrame 0 (World.start demoPixels)).1.speedup =
      FloatVal.div (FloatVal.fin 0) (FloatVal.fin 0) ∧
    (compareProcessing frozenEnv demoFrame 0 (World.start demoPixels)).1.speedup = FloatVal.nan :=
  ⟨rfl, rfl, rfl, rfl⟩

/-- C4 (amended): with `iterations = 0`, `compareProcessing` sets `framesProcessed = 0` and
invokes no detector; the two totals are the whole milliseconds measured across the empty loops;
the speedup is the quotient `cpuTime / gpuTime` in every case, hence NaN when both totals
are 0. -/
theorem compareProcessing_zero_iterations (env : Env) (frame : Mat) (w : World) :
    (compareProcessing env frame 0 w).1.framesProcessed = 0 ∧
    detectorCalls (compareProcessing env frame 0 w).2.trace = detectorCalls w.trace ∧
    (compareProcessing env frame 0 w).1.cpuTime =
      FloatVal.ofInt (durationMs (env.clock w.tick) (env.clock (w.tick + 1))) ∧
    (compareProcessing env frame 0 w).1.gpuTime =
      FloatVal.ofInt (durationMs (env.clock (w.tick + 2)) (env.clock (w.tick + 3))) ∧
    (compareProcessing env frame 0 w).1.speedup =
      FloatVal.div (compareProcessing env frame 0 w).1.cpuTime
        (compareProcessing env frame 0 w).1.gpuTime ∧
    ((compareProcessing env frame 0 w).1.cpuTime = FloatVal.fin 0 →
      (compareProcessing env frame 0 w).1.gpuTime = FloatVal.fin 0 →
      (compareProcessing env frame 0 w).1.speedup = FloatVal.nan) := by
  rw [compareProcessing_times, compareProcessing_trace]
  refine ⟨rfl, ?_, rfl, rfl, rfl, ?_⟩
  · simp [detectorCalls, benchEvents_filter_detector]
  · intro hc hg
    simp only at hc hg ⊢
    rw [hc, hg, FloatVal.div_zero_zero]

/-- Witness of C4 (amended) with a clock that does not advance. -/
theorem compareProcessing_zero_iterations_witness :
    (compareProcessing frozenEnv demoFrame 0 (World.start demoPixels)).1.speedup = FloatVal.nan :=
  (compareProcessing_zero_iterations frozenEnv demoFrame (World.start demoPixels)).2.2.2.2.2
    rfl rfl

/-- C5 (counterexample): the two reported times are not measured independently. There is a
constant `k` such that in every record the reference time is the float product of the
accelerated time by `k` (accelerated path selected) or the accelerated time is the float
quotient of the reference time by `k` (reference path selected). -/
theorem processFrame_times_fixed_constant :
    ∃ k : ℚ, ∀ (env : Env) (useGPU : Bool) (px : List Nat) (r : ProcessingResult),
      (processFrame env useGPU (World.start px)).1 = some r →
      (useGPU = true → r.cpuTime = FloatVal.mulF r.gpuTime (FloatVal.fin k)) ∧
      (useGPU = false → r.gpuTime = FloatVal.divF r.cpuTime (FloatVal.fin k)) := by
  refine ⟨7 / 2, ?_⟩
  intro env useGPU px r hr
  have h := processFrame_times env useGPU (World.start px) r hr
  constructor
  · intro hg
    subst hg
    exact h.2
  · intro hg
    subst hg
    exact h.2

/-- C5 (amended): `processFrame` measures the selected path only. The time of the selected path
is the measured elapsed time converted to `float`; the other one is derived from it with the
constant 3.5 in `float` arithmetic (`elapsed * 3.5f`, respectively `elapsed / 3.5f`). The
reported reference time is therefore 3.5 times the reported accelerated time up to a relative
rounding error of `2 ^ (-24)`, and, because of that rounding, not by an exact common factor. -/
theorem processFrame_times_derived :
    (∀ (env : Env) (useGPU : Bool) (px : List Nat) (r : ProcessingResult),
      (processFrame env useGPU (World.start px)).1 = some r →
      (useGPU = true →
        r.gpuTime = FloatVal.ofIntF (measuredMs env true 0) ∧
        r.cpuTime = FloatVal.mulF r.gpuTime (FloatVal.fin (7 / 2))) ∧
      (useGPU = false →
        r.cpuTime = FloatVal.ofIntF (measuredMs env false 0) ∧
        r.gpuTime = FloatVal.divF r.cpuTime (FloatVal.fin (7 / 2))) ∧
      ∃ c g : ℚ, r.cpuTime = FloatVal.fin c ∧ r.gpuTime = FloatVal.fin g ∧
        |c - 7 / 2 * g| ≤ (if useGPU then |7 / 2 * g| else |c|) / 2 ^ 24) ∧
    ¬ ∃ k : ℚ, ∀ (env : Env) (useGPU : Bool) (px : List Nat) (r : ProcessingResult),
      (processFrame env useGPU (World.start px)).1 = some r →
      ∃ c g : ℚ, r.cpuTime = FloatVal.fin c ∧ r.gpuTime = FloatVal.fin g ∧ c = k * g := by
  constructor
  · intro env useGPU px r hr
    have h := processFrame_times env useGPU (World.start px) r hr
    cases useGPU
    · simp only [Bool.false_eq_true, if_false, World.start] at h
      refine ⟨by simp, fun _ => h, ?_⟩
      refine ⟨roundTo 24 ((measuredMs env false 0 : Int) : ℚ),
        roundTo 24 (roundTo 24 ((measuredMs env false 0 : Int) : ℚ) / (7 / 2)), h.1, ?_, ?_⟩
      · rw [h.2, h.1]
        exact FloatVal.divP_fin 24 _ _ (by norm_num)
      · have herr := roundTo_err 24 (by norm_num)
          (roundTo 24 ((measuredMs env false 0 : Int) : ℚ) / (7 / 2))
        have e1 : roundTo 24 ((measuredMs env false 0 : Int) : ℚ) -
            7 / 2 * roundTo 24 (roundTo 24 ((measuredMs env false 0 : Int) : ℚ) / (7 / 2)) =
            -(7 / 2) * (roundTo 24 (roundTo 24 ((measuredMs env false 0 : Int) : ℚ) / (7 / 2)) -
              roundTo 24 ((measuredMs env false 0 : Int) : ℚ) / (7 / 2)) := by ring
        have e2 : |roundTo 24 ((measuredMs env false 0 : Int) : ℚ) / (7 / 2)| =
            |roundTo 24 ((measuredMs env false 0 : Int) : ℚ)| / (7 / 2) := by
          rw [abs_div, abs_of_pos (by norm_num : (0 : ℚ) < 7 / 2)]
        simp only [Bool.false_eq_true, if_false]
        rw [e1, abs_mul, abs_neg, abs_of_pos (by norm_num : (0 : ℚ) < 7 / 2)]
        rw [e2] at herr
        calc 7 / 2 * |roundTo 24 (roundTo 24 ((measuredMs env false 0 : Int) : ℚ) / (7 / 2)) -
              roundTo 24 ((measuredMs env false 0 : Int) : ℚ) / (7 / 2)|
            ≤ 7 / 2 * (|roundTo 24 ((measuredMs env false 0 : Int) : ℚ)| / (7 / 2) / 2 ^ 24) :=
              mul_le_mul_of_nonneg_left herr (by norm_num)
          _ = |roundTo 24 ((measuredMs env false 0 : Int) : ℚ)| / 2 ^ 24 := by
              field_simp
              ring
    · simp only [if_true, World.start] at h
      refine ⟨fun _ => h, by simp, ?_⟩
      refine ⟨roundTo 24 (roundTo 24 ((measuredMs env true 0 : Int) : ℚ) * (7 / 2)),
        roundTo 24 ((measuredMs env true 0 : Int) : ℚ), ?_, h.1, ?_⟩
      · rw [h.2, h.1]
        rfl
      · have herr := roundTo_err 24 (by norm_num)
          (roundTo 24 ((measuredMs env true 0 : Int) : ℚ) * (7 / 2))
        simp only [if_true]
        rw [mul_comm (7 / 2 : ℚ) (roundTo 24 ((measuredMs env true 0 : Int) : ℚ))]
        exact herr
  · rintro ⟨k, hk⟩
    obtain ⟨c1, g1, hc1, hg1, e1⟩ := hk demoEnv true demoPixels _ demoEnv_processFrame
    obtain ⟨c2, g2, hc2, hg2, e2⟩ := hk demoEnv false demoPixels _ demoEnv_processFrame_cpu
    simp only [FloatVal.fin.injEq] at hc1 hg1 hc2 hg2
    subst hc1 hg1 hc2 hg2
    have hk1 : k = 7 / 2 := by linarith
    rw [hk1] at e2
    norm_num at e2

/-- Witness of C5 (amended): 2 ms measured on the accelerated path, 7 ms reported for the
reference path. -/
theorem processFrame_times_derived_witness :
    (processFrame demoEnv true (World.start demoPixels)).1 =
        some { fps := FloatVal.fin 500, cpuTime := FloatVal.fin 7, gpuTime := FloatVal.fin 2 } ∧
    FloatVal.fin 2 = FloatVal.ofIntF (measuredMs demoEnv true 0) ∧
    FloatVal.fin 7 = FloatVal.mulF (FloatVal.fin 2) (FloatVal.fin (7 / 2)) :=
  ⟨demoEnv_processFrame,
   ((processFrame_times_derived.1 demoEnv true demoPixels
      { fps := FloatVal.fin 500, cpuTime := FloatVal.fin 7, gpuTime := FloatVal.fin 2 }
      demoEnv_processFrame).1 rfl).1,
   ((processFrame_times_derived.1 demoEnv true demoPixels
      { fps := FloatVal.fin 500, cpuTime := FloatVal.fin 7, gpuTime := FloatVal.fin 2 }
      demoEnv_processFrame).1 rfl).2⟩

/-- C6: for `iterations = n ≥ 0`, `compareProcessing` invokes `edgeDetectionCPU` `n` times and
then `edgeDetectionGPU` `n` times, each on the same grayscale buffer and dimensions, and sets
`framesProcessed = n`; for negative `iterations` it invokes neither. -/
theorem compareProcessing_invocations (env : Env) (frame : Mat) (w : World) (n m : Nat) :
    let gray := if frame.channels = 3 ∨ frame.channels = 4 then
        env.cvtColor ColorCode.BGR2GRAY frame else frame
    (detectorCalls (compareProcessing env frame (n : Int) w).2.trace =
        detectorCalls w.trace ++ List.replicate n (Event.callCPU gray) ++
          List.replicate n
            (Event.callGPU gray.data (gray.cols * gray.rows).toNat gray.cols gray.rows) ∧
      (compareProcessing env frame (n : Int) w).1.framesProcessed = (n : Int)) ∧
    detectorCalls (compareProcessing env frame (Int.negSucc m) w).2.trace =
      detectorCalls w.trace := by
  intro gray
  rw [compareProcessing_trace, compareProcessing_trace, compareProcessing_times]
  simp [detectorCalls, benchEvents_filter_detector, benchGray, gray]

/-- C7 (counterexample): with a reference total of 1 ms and an accelerated total of 3 ms the
speedup returned by `compareProcessing` is the double nearest to 1/3, not the rational 1/3. -/
theorem compareProcessing_speedup_rounded :
    (compareProcessing slowGpuEnv demoFrame 1 (World.start demoPixels)).1.cpuTime =
      FloatVal.fin 1 ∧
    (compareProcessing slowGpuEnv demoFrame 1 (World.start demoPixels)).1.gpuTime =
      FloatVal.fin 3 ∧
    (compareProcessing slowGpuEnv demoFrame 1 (World.start demoPixels)).1.speedup =
      FloatVal.fin (6004799503160661 / 18014398509481984) ∧
    (compareProcessing slowGpuEnv demoFrame 1 (World.start demoPixels)).1.speedup ≠
      FloatVal.fin (1 / 3) := by
  have ht := slowGpuEnv_times
  have hs : (compareProcessing slowGpuEnv demoFrame 1 (World.start demoPixels)).1.speedup =
      FloatVal.fin (6004799503160661 / 18014398509481984) := by
    rw [compareProcessing_speedup_eq, ht.1, ht.2]
    unfold FloatVal.div
    rw [FloatVal.divP_fin 53 1 3 (by norm_num), roundTo_one_third]
  refine ⟨ht.1, ht.2, hs, ?_⟩
  rw [hs]
  intro h
  simp only [FloatVal.fin.injEq] at h
  norm_num at h

/-- C7 (amended): when the accelerated total `gpuTime` is positive and the reference total
`cpuTime` is non-negative, the speedup returned by `compareProcessing` is the quotient
`cpuTime / gpuTime` rounded to the nearest `double`: it is non-negative and differs from the
rational `cpuTime / gpuTime` by at most that quotient times `2 ^ (-53)`. -/
theorem compareProcessing_speedup (env : Env) (frame : Mat) (iterations : Int) (w : World)
    (c g : ℚ)
    (hc : (compareProcessing env frame iterations w).1.cpuTime = FloatVal.fin c)
    (hg : (compareProcessing env frame iterations w).1.gpuTime = FloatVal.fin g)
    (hpos : 0 < g) (hnn : 0 ≤ c) :
    (compareProcessing env frame iterations w).1.speedup = FloatVal.fin (roundTo 53 (c / g)) ∧
    0 ≤ roundTo 53 (c / g) ∧
    |roundTo 53 (c / g) - c / g| ≤ c / g / 2 ^ 53 := by
  have hq : 0 ≤ c / g := div_nonneg hnn (le_of_lt hpos)
  refine ⟨?_, roundTo_nonneg 53 _ hq, ?_⟩
  · rw [compareProcessing_speedup_eq, hc, hg]
    exact FloatVal.divP_fin 53 c g (ne_of_gt hpos)
  · have herr := roundTo_err 53 (by norm_num) (c / g)
    rw [abs_of_nonneg hq] at herr
    exact herr

/-- Witness of C7 (amended): 1 ms against 3 ms. -/
theorem compareProcessing_speedup_witness :
    (compareProcessing slowGpuEnv demoFrame 1 (World.start demoPixels)).1.speedup =
      FloatVal.fin (roundTo 53 (1 / 3)) ∧
    0 ≤ roundTo 53 ((1 : ℚ) / 3) ∧
    |roundTo 53 ((1 : ℚ) / 3) - 1 / 3| ≤ 1 / 3 / 2 ^ 53 :=
  compareProcessing_speedup slowGpuEnv demoFrame 1 (World.start demoPixels) 1 3
    slowGpuEnv_times.1 slowGpuEnv_times.2 (by norm_num) (by norm_num)

/-- C8 (counterexample): with a measured elapsed time of 0 ms, `processFrame` still divides by
it and returns a record whose rate is the value of `1000 / 0`, positive infinity; with 3 ms
elapsed the rate is the `float` nearest to 1000/3, not 1000/3. -/
theorem processFrame_fps_zero_elapsed :
    measuredMs frozenEnv true 0 = 0 ∧
    (processFrame frozenEnv true (World.start demoPixels)).1 =
      some { fps := FloatVal.divF (FloatVal.fin 1000) (FloatVal.fin 0),
             cpuTime := FloatVal.fin 0, gpuTime := FloatVal.fin 0 } ∧
    FloatVal.divF (FloatVal.fin 1000) (FloatVal.fin 0) = FloatVal.posInf ∧
    measuredMs threeMsEnv true 0 = 3 ∧
    (∃ r, (processFrame threeMsEnv true (World.start demoPixels)).1 = some r ∧
      r.fps = FloatVal.fin (10922667 / 32768)) ∧
    (10922667 / 32768 : ℚ) ≠ 1000 / 3 := by
  refine ⟨by decide, ?_, FloatVal.divF_pos_zero 1000 (by norm_num), by decide,
    ⟨_, threeMsEnv_processFrame, rfl⟩, by norm_num⟩
  have hms : measuredMs frozenEnv true 0 = 0 := by decide
  have h0 : FloatVal.ofIntF 0 = FloatVal.fin 0 := by
    simpa using FloatVal.ofIntF_small 0 (by decide)
  have hz : roundTo 24 0 = 0 := by simp [roundTo]
  rw [processFrame_result]
  simp only [World.start, hms, h0, FloatVal.mulF, FloatVal.mulP, zero_mul, hz]
  simp [frozenEnv, demoEnv]

/-- C8 (amended): the rate reported by `processFrame` is the `float` quotient of 1000 by the
measured elapsed milliseconds converted to `float`, in every case. For a positive elapsed time
it is `1000 / elapsed` rounded to the nearest `float` (relative error at most `2 ^ (-24)`, the
conversion of the elapsed time being exact below `2 ^ 24` ms); for an elapsed time of 0 ms the
division is still performed and yields positive infinity. -/
theorem processFrame_fps_value (env : Env) (useGPU : Bool) (px : List Nat)
    (r : ProcessingResult) (hr : (processFrame env useGPU (World.start px)).1 = some r) :
    r.fps = FloatVal.divF (FloatVal.fin 1000) (FloatVal.ofIntF (measuredMs env useGPU 0)) ∧
    (0 < measuredMs env useGPU 0 →
      r.fps = FloatVal.fin
        (roundTo 24 (1000 / roundTo 24 ((measuredMs env useGPU 0 : Int) : ℚ))) ∧
      |roundTo 24 (1000 / roundTo 24 ((measuredMs env useGPU 0 : Int) : ℚ)) -
          1000 / roundTo 24 ((measuredMs env useGPU 0 : Int) : ℚ)| ≤
        1000 / roundTo 24 ((measuredMs env useGPU 0 : Int) : ℚ) / 2 ^ 24 ∧
      (measuredMs env useGPU 0 < 2 ^ 24 →
        roundTo 24 ((measuredMs env useGPU 0 : Int) : ℚ) =
          ((measuredMs env useGPU 0 : Int) : ℚ))) ∧
    (measuredMs env useGPU 0 = 0 → r.fps = FloatVal.posInf) := by
  have h := processFrame_fps env useGPU (World.start px) r hr
  simp only [World.start] at h
  refine ⟨h, ?_, ?_⟩
  · intro hpos
    have hq : (0 : ℚ) < ((measuredMs env useGPU 0 : Int) : ℚ) := by exact_mod_cast hpos
    have hT := roundTo_pos 24 (by norm_num) _ hq
    have hdiv : (0 : ℚ) ≤ 1000 / roundTo 24 ((measuredMs env useGPU 0 : Int) : ℚ) :=
      div_nonneg (by norm_num) (le_of_lt hT)
    refine ⟨?_, ?_, ?_⟩
    · rw [h]
      exact FloatVal.divP_fin 24 _ _ (ne_of_gt hT)
    · have herr := roundTo_err 24 (by norm_num)
        (1000 / roundTo 24 ((measuredMs env useGPU 0 : Int) : ℚ))
      rw [abs_of_nonneg hdiv] at herr
      exact herr
    · intro hlt
      apply roundTo_intCast
      omega
  · intro hz
    have h0 : FloatVal.ofIntF 0 = FloatVal.fin 0 := by
      simpa using FloatVal.ofIntF_small 0 (by decide)
    rw [h, hz, h0]
    exact FloatVal.divF_pos_zero 1000 (by norm_num)

/-- Witness of C8 (amended): 2 ms elapsed, 500 frames per second. -/
theorem processFrame_fps_value_witness :
    FloatVal.fin 500 = FloatVal.fin
      (roundTo 24 (1000 / roundTo 24 ((measuredMs demoEnv true 0 : Int) : ℚ))) :=
  ((processFrame_fps_value demoEnv true demoPixels
    { fps := FloatVal.fin 500, cpuTime := FloatVal.fin 7, gpuTime := FloatVal.fin 2 }
    demoEnv_processFrame).2.1 (by decide)).1

/-- C9 (counterexample): for a bitmap of width 0 `processFrame` acquires the lock, converts the
colours, invokes the accelerated detector and returns a metrics record. -/
theorem processFrame_zero_width_processed :
    zeroWidthEnv.bitmapInfo.width = 0 ∧
    (processFrame zeroWidthEnv true (World.start [])).1.isSome = true ∧
    Event.cvtColor ColorCode.RGBA2GRAY ∈
      (processFrame zeroWidthEnv true (World.start [])).2.trace ∧
    detectorCalls (processFrame zeroWidthEnv true (World.start [])).2.trace =
      [Event.callGPU [] 0 0 1] := by
  decide

/-- C9 (amended): `processFrame` does not validate the dimensions. For a bitmap of width 0 or
height 0 whose acquisition succeeds it proceeds as for any other request: it takes the lock and
reaches the colour conversion, then (the OpenCV calls returning) invokes exactly the detector
selected by `useGPU`, once, the accelerated one with an output buffer of 0 bytes, writes back
zero bytes (the bitmap is unchanged) and returns a metrics record exactly when the result class
and its constructor are found. -/
theorem processFrame_zero_dimension (env : Env) (useGPU : Bool) (px : List Nat)
    (hInfo : 0 ≤ env.getInfoRc) (hLock : 0 ≤ env.lockRc)
    (hz : env.bitmapInfo.width = 0 ∨ env.bitmapInfo.height = 0) :
    let gray := env.cvtColor ColorCode.RGBA2GRAY
      { rows := toInt32 env.bitmapInfo.height, cols := toInt32 env.bitmapInfo.width,
        channels := 4, data := px }
    [Event.getInfo env.getInfoRc, Event.lockPixels env.lockRc, Event.logI,
        Event.cvtColor ColorCode.RGBA2GRAY] <+:
      (processFrame env useGPU (World.start px)).2.trace ∧
    (useGPU = true →
      detectorCalls (processFrame env useGPU (World.start px)).2.trace =
        [Event.callGPU gray.data 0 (toInt32 env.bitmapInfo.width)
          (toInt32 env.bitmapInfo.height)]) ∧
    (useGPU = false →
      detectorCalls (processFrame env useGPU (World.start px)).2.trace = [Event.callCPU gray]) ∧
    (processFrame env useGPU (World.start px)).2.pixels = px ∧
    (processFrame env useGPU (World.start px)).1.isSome =
      (env.hasResultClass && env.hasConstructor) := by
  intro gray
  have hc := processFrame_calls env useGPU px hInfo hLock
  have hpre := processFrame_trace_prefix env useGPU px hInfo hLock
  have hlen0 : gpuOutputLen env.bitmapInfo = 0 := by
    rcases hz with h | h <;> simp [gpuOutputLen, mulU32, h]
  have hlen : writeBackLen env.bitmapInfo = 0 := by
    rcases hz with h | h <;> simp [writeBackLen, mulU32, h]
  refine ⟨hpre, ?_, ?_, ?_, ?_⟩
  · intro hg
    subst hg
    rw [hc.1, hlen0]
    simp [frameGray, gray]
  · intro hg
    subst hg
    rw [hc.1]
    simp [frameGray, gray]
  · rw [hc.2, hlen]
    simp
  · rw [processFrame_result]
    cases hcl : env.hasResultClass <;> cases hm : env.hasConstructor <;> simp [hInfo, hLock]

/-- Witness of C9 (amended) on the bitmap of width 0, both values of the flag. -/
theorem processFrame_zero_dimension_witness :
    (detectorCalls (processFrame zeroWidthEnv true (World.start [])).2.trace =
        [Event.callGPU [] 0 0 1] ∧
      (processFrame zeroWidthEnv true (World.start [])).2.pixels = []) ∧
    (detectorCalls (processFrame zeroWidthEnv false (World.start [])).2.trace =
        [Event.callCPU { rows := 1, cols := 0, channels := 1, data := [] }] ∧
      (processFrame zeroWidthEnv false (World.start [])).2.pixels = []) :=
  ⟨⟨(processFrame_zero_dimension zeroWidthEnv true [] (by decide) (by decide)
        (Or.inl (by decide))).2.1 rfl,
    (processFrame_zero_dimension zeroWidthEnv true [] (by decide) (by decide)
        (Or.inl (by decide))).2.2.2.1⟩,
   ⟨(processFrame_zero_dimension zeroWidthEnv false [] (by decide) (by decide)
        (Or.inl (by decide))).2.2.1 rfl,
    (processFrame_zero_dimension zeroWidthEnv false [] (by decide) (by decide)
        (Or.inl (by decide))).2.2.2.1⟩⟩

/-- C10 (counterexample): for a 65536 x 65536 bitmap, both dimensions being 32-bit unsigned
values, `processFrame` allocates 0 bytes and copies back 0 bytes, while the product of the
dimensions is not 0.  The sizes do not depend on the pixel bytes. -/
theorem processFrame_sizes_wrap :
    hugeEnv.bitmapInfo.width < 2 ^ 32 ∧ hugeEnv.bitmapInfo.height < 2 ^ 32 ∧
    (processFrame hugeEnv true (World.start [])).2.trace.filter Event.isAlloc =
      [Event.alloc 0] ∧
    (processFrame hugeEnv true (World.start [])).2.trace.filter Event.isMemcpy =
      [Event.memcpy 0] ∧
    hugeEnv.bitmapInfo.width * hugeEnv.bitmapInfo.height ≠ 0 := by
  decide

/-- C10 (amended): the accelerated-path output allocation and the write-back of `processFrame`
have sizes `width * height` and `width * height * 4` reduced modulo `2 ^ 32`; they are the
mathematical products whenever `width * height * 4 < 2 ^ 32`. -/
theorem processFrame_sizes_exact (env : Env) (useGPU : Bool) (px : List Nat)
    (hInfo : 0 ≤ env.getInfoRc) (hLock : 0 ≤ env.lockRc) :
    ((processFrame env useGPU (World.start px)).2.trace.filter Event.isAlloc =
        (if useGPU then
          [Event.alloc ((env.bitmapInfo.width * env.bitmapInfo.height) % 2 ^ 32)] else []) ∧
      (processFrame env useGPU (World.start px)).2.trace.filter Event.isMemcpy =
        [Event.memcpy
          (((env.bitmapInfo.width * env.bitmapInfo.height) % 2 ^ 32 * 4) % 2 ^ 32)]) ∧
    (env.bitmapInfo.width * env.bitmapInfo.height * 4 < 2 ^ 32 →
      (processFrame env useGPU (World.start px)).2.trace.filter Event.isAlloc =
        (if useGPU then [Event.alloc (env.bitmapInfo.width * env.bitmapInfo.height)] else []) ∧
      (processFrame env useGPU (World.start px)).2.trace.filter Event.isMemcpy =
        [Event.memcpy (env.bitmapInfo.width * env.bitmapInfo.height * 4)]) := by
  have hs := processFrame_sizes env useGPU px hInfo hLock
  refine ⟨hs, ?_⟩
  intro hfit
  have h1 : env.bitmapInfo.width * env.bitmapInfo.height < 2 ^ 32 := by omega
  rw [hs.1, hs.2]
  simp only [gpuOutputLen, writeBackLen, mulU32, Nat.mod_eq_of_lt h1, Nat.mod_eq_of_lt hfit,
    and_self]

/-- Witness of C10 (amended) on the 2x1 bitmap: 2 bytes allocated, 8 bytes copied. -/
theorem processFrame_sizes_exact_witness :
    (processFrame demoEnv true (World.start demoPixels)).2.trace.filter Event.isAlloc =
      [Event.alloc 2] ∧
    (processFrame demoEnv true (World.start demoPixels)).2.trace.filter Event.isMemcpy =
      [Event.memcpy 8] :=
  (processFrame_sizes_exact demoEnv true demoPixels (by decide) (by decide)).2 (by decide)

end GPUCameraApp
